import Mathlib

/-! # brillo: operation executor and value conversion

A shallow embedding of `src/value.c` and `src/exec.c`, with `info_print` of
`src/info.c` and `light_check_ops` of `src/parse.c`.

Machine integers: an `int64_t` is an `Int` kept in `[-2^63, 2^63)`, a
`uint64_t` is a `Nat` kept below `2^64`.  Every conversion between the two and
every arithmetic operation that can leave the range is written out with an
explicit reduction (`u64`, `i64`, `wrap64`).  Signed overflow is modelled as
two's-complement wrap-around.

The storage accessor (`file_open`, `file_read`, `file_write`), the path
functions, the controller iterator and the floating-point library are outside
the embedded sources; their behaviour is carried by the `World` value.
-/

namespace Brillo

/-! ## Enumerations of `light.h` (the constants used by the sources) -/

/-- Modelled from the spec: the type `LIGHT_FIELD` of `light.h`, the field an
operation targets (brightness, max-brightness, mincap, save-restore), with the
constant names the sources use. -/
inductive LIGHT_FIELD where
  | LIGHT_BRIGHTNESS
  | LIGHT_MAX_BRIGHTNESS
  | LIGHT_MIN_CAP
  | LIGHT_SAVERESTORE
  deriving DecidableEq, Repr

/-- Modelled from the spec: the type `LIGHT_OP_MODE` of `light.h`, the operation
modes (get, set, add, sub, save, restore) and the three information modes
that `info_print` handles. -/
inductive LIGHT_OP_MODE where
  | LIGHT_GET
  | LIGHT_SET
  | LIGHT_ADD
  | LIGHT_SUB
  | LIGHT_PRINT_HELP
  | LIGHT_PRINT_VERSION
  | LIGHT_LIST_CTRL
  | LIGHT_RESTORE
  | LIGHT_SAVE
  deriving DecidableEq, Repr

/-- Modelled from the spec: the type `LIGHT_VAL_MODE` of `light.h`, the value
modes (raw, percent, percent-exponential). -/
inductive LIGHT_VAL_MODE where
  | LIGHT_RAW
  | LIGHT_PERCENT
  | LIGHT_PERCENT_EXPONENTIAL
  deriving DecidableEq, Repr

/-- Modelled from the spec: the controller-selection mode of `light.h` (auto,
specify, all). -/
inductive LIGHT_CTRL_MODE where
  | LIGHT_CTRL_AUTO
  | LIGHT_CTRL_SPECIFY
  | LIGHT_CTRL_ALL
  deriving DecidableEq, Repr

open LIGHT_FIELD LIGHT_OP_MODE LIGHT_VAL_MODE LIGHT_CTRL_MODE

/-! ## Machine integers -/

/-- Conversion of an `int64_t` to `uint64_t`: reduction modulo `2^64`. -/
def u64 (x : Int) : Nat := (x % 18446744073709551616).toNat

/-- Conversion of a `uint64_t` to `int64_t`: the two's-complement reading. -/
def i64 (n : Nat) : Int :=
  if n % 18446744073709551616 < 9223372036854775808 then ((n % 18446744073709551616 : Nat) : Int)
  else ((n % 18446744073709551616 : Nat) : Int) - 18446744073709551616

/-- Result of a signed 64-bit operation whose exact value is `x`. -/
def wrap64 (x : Int) : Int := i64 (u64 x)

/-- The predicate "is a value of type `int64_t`". -/
def isInt64 (x : Int) : Prop := -9223372036854775808 ≤ x ∧ x ≤ 9223372036854775807

instance (x : Int) : Decidable (isInt64 x) := by unfold isInt64; infer_instance

/-! ## `value.c` -/

/-- Modelled from the spec: the constant `VALUE_PCT_MAX` of `value.h`, the
fixed-point percentage maximum (hundredths of a percent, 100.00% = 10000). -/
def VALUE_PCT_MAX : Nat := 10000

/-- The two floating-point computations of the exponential mode
(`log(raw)/log(max) * VALUE_PCT_MAX` and `exp(val * log(max) / VALUE_PCT_MAX)`,
each cast to `uint64_t`), kept abstract. -/
structure FloatOps where
  log_pct : Nat → Nat → Nat
  exp_raw : Nat → Nat → Nat

/-- Function `value_clamp` (value.c:14-25); the warnings are not modelled. -/
def value_clamp (val min max : Nat) : Nat :=
  if val < min then min
  else if val > max then max
  else val

/-- Modelled from the spec: the function-like constant `VALUE_CLAMP_PCT` of
`value.h`, which clamps a percentage to `[0, VALUE_PCT_MAX]`. -/
def VALUE_CLAMP_PCT (val : Nat) : Nat := value_clamp val 0 VALUE_PCT_MAX

/-- Function `value_from_raw` (value.c:37-47) on `uint64_t` arguments.  The product
wraps modulo `2^64`; a zero `max` in percent mode is a division by zero, for
which the C program has no result (`none`). -/
def value_from_raw (fl : FloatOps) (mode : LIGHT_VAL_MODE) (raw max : Nat) : Option Nat :=
  match mode with
  | LIGHT_RAW => some raw
  | LIGHT_PERCENT =>
    if max = 0 then none
    else some (VALUE_CLAMP_PCT ((raw * VALUE_PCT_MAX) % 18446744073709551616 / max))
  | LIGHT_PERCENT_EXPONENTIAL => some (fl.log_pct raw max % 18446744073709551616)

/-- Function `value_to_raw` (value.c:59-69) on `uint64_t` arguments; the product wraps
modulo `2^64`. -/
def value_to_raw (fl : FloatOps) (mode : LIGHT_VAL_MODE) (val max : Nat) : Nat :=
  match mode with
  | LIGHT_RAW => val
  | LIGHT_PERCENT => ((val * max) % 18446744073709551616) / VALUE_PCT_MAX
  | LIGHT_PERCENT_EXPONENTIAL => fl.exp_raw val max % 18446744073709551616

/-! ## The environment of the executor -/

/-- Something printed on standard output. -/
inductive OutLine where
  /-- The controller name followed by a tab (`exec_all`, exec.c:209). -/
  | ctrl_tab (name : String)
  /-- A raw value and a newline (`exec_get`, exec.c:115). -/
  | raw_value (val : Int)
  /-- A percentage with two decimals and a newline (exec.c:117); `val` is the
  number of hundredths that is divided by `100.00` for printing. -/
  | pct_value (val : Int)
  /-- The usage text of `info_print_help`. -/
  | help
  /-- The text of `info_print_version`. -/
  | version
  /-- A controller name printed by `info_list`. -/
  | list_entry (name : String)
  deriving DecidableEq, Repr

/-- The four pseudo-files of one controller as the storage accessor presents
them: what `file_read` returns for each (a negative number is an error code),
what `file_open` returns for each (a negative number is a failure), and
whether `file_write` on it succeeds. -/
structure CtrlFiles where
  brightness : Int
  max_brightness : Int
  mincap : Int
  saverestore : Int
  fd : LIGHT_FIELD → Int
  write_ok : LIGHT_FIELD → Bool

/-- One successful `file_write`. -/
structure WriteRec where
  ctrl : String
  field : LIGHT_FIELD
  val_old : Int
  val_new : Int
  deriving DecidableEq, Repr

/-- Everything outside the process: the floating-point library, the path
functions, the directory of controllers, the files, and the record of what was
written and printed so far. -/
structure World where
  fl : FloatOps
  /-- Whether `path_component` accepts the name and `path_new`/`path_append` succeed. -/
  path_ok : String → Bool
  /-- What `opendir` and then `ctrl_iter_next` yield; `none` when `opendir` fails. -/
  dir : Option (List String)
  files : String → CtrlFiles
  writes : List WriteRec
  out : List OutLine

/-- The configuration object `struct light_conf` (the members the executor
reads or writes; the two path prefixes are represented by the `World`). -/
structure light_conf where
  ctrl_mode : LIGHT_CTRL_MODE
  ctrl : Option String
  op_mode : LIGHT_OP_MODE
  val_mode : LIGHT_VAL_MODE
  field : LIGHT_FIELD
  value : Int
  usec : Int
  cached_max : Int

/-- What a call leaves behind: its return value, the configuration object
(which `exec_all` and `exec_restore` modify) and the world. -/
structure Res where
  ret : Bool
  conf : light_conf
  world : World

/-- The value `file_read` returns for a field of a controller. -/
def CtrlFiles.read (c : CtrlFiles) : LIGHT_FIELD → Int
  | LIGHT_BRIGHTNESS => c.brightness
  | LIGHT_MAX_BRIGHTNESS => c.max_brightness
  | LIGHT_MIN_CAP => c.mincap
  | LIGHT_SAVERESTORE => c.saverestore

/-- The files of a controller after `v` has been written to one of them. -/
def CtrlFiles.store (c : CtrlFiles) (f : LIGHT_FIELD) (v : Int) : CtrlFiles :=
  match f with
  | LIGHT_BRIGHTNESS => { c with brightness := v }
  | LIGHT_MAX_BRIGHTNESS => { c with max_brightness := v }
  | LIGHT_MIN_CAP => { c with mincap := v }
  | LIGHT_SAVERESTORE => { c with saverestore := v }

/-- The world after the value `val_new` has been committed to a file. -/
def World.commit (w : World) (ctrl : String) (field : LIGHT_FIELD) (val_old val_new : Int) : World :=
  { w with
    files := Function.update w.files ctrl ((w.files ctrl).store field val_new)
    writes := w.writes ++ [⟨ctrl, field, val_old, val_new⟩] }

/-- The world after some lines have been printed. -/
def World.print (w : World) (ls : List OutLine) : World :=
  { w with out := w.out ++ ls }

/-- Modelled from the spec: `file_open` of the storage accessor,
`open(path, mode) -> handle|error`; the path is the pair (controller, field). -/
def file_open (w : World) (path : String × LIGHT_FIELD) : Int :=
  (w.files path.1).fd path.2

/-- Modelled from the spec: `file_read` of the storage accessor,
`read(path) -> int64|negative error code`. -/
def file_read (w : World) (path : String × LIGHT_FIELD) : Int :=
  (w.files path.1).read path.2

/-- Modelled from the spec: `file_write` of the storage accessor,
`write(handle, oldValue, newValue, delayMicroseconds) -> success`.  The handle
stands for the path it was opened on.  A successful write leaves `val_new` in
the file; a failed one is taken to leave the file as it was. -/
def file_write (w : World) (path : String × LIGHT_FIELD) (_fd : Int)
    (val_old val_new _usec : Int) : Bool × World :=
  if (w.files path.1).write_ok path.2 then (true, w.commit path.1 path.2 val_old val_new)
  else (false, w)

/-! ## `exec.c` -/

/-- Function `light_path_new` (exec.c:280-316): the path of a field of the configured
controller, `none` for `NULL`.  A missing controller name is not a path
component. -/
def light_path_new (conf : light_conf) (type : LIGHT_FIELD) (w : World) :
    Option (String × LIGHT_FIELD) :=
  match conf.ctrl with
  | none => none
  | some c => if w.path_ok c then some (c, type) else none

/-- Function `light_fetch` (exec.c:327-331); `-ENOMEM` is `-12`. -/
def light_fetch (conf : light_conf) (field : LIGHT_FIELD) (w : World) : Int :=
  match light_path_new conf field w with
  | some path => file_read w path
  | none => -12

/-- Function `exec_get_min` (exec.c:357-361). -/
def exec_get_min (conf : light_conf) (w : World) : Int :=
  let mincap := light_fetch conf LIGHT_MIN_CAP w
  if mincap ≥ 0 then mincap else 0

/-- Function `exec_init` (exec.c:24-60): `some (curr, max, mincap)` when it returns
true, `none` when it returns false. -/
def exec_init (conf : light_conf) (w : World) : Option (Int × Int × Int) :=
  let max := if conf.cached_max ≠ 0 then conf.cached_max
             else light_fetch conf LIGHT_MAX_BRIGHTNESS w
  if conf.cached_max = 0 ∧ max < 0 then none
  else if (conf.field = LIGHT_MIN_CAP ∧ conf.op_mode = LIGHT_SET) ∨
      conf.field = LIGHT_MAX_BRIGHTNESS then some (0, max, 0)
  else
    let curr := light_fetch conf LIGHT_BRIGHTNESS w
    if curr < 0 then none
    else
      let mincap := exec_get_min conf w
      if mincap < 0 then none
      else if mincap > max then none
      else some (curr, max, mincap)

/-- Function `exec_get` (exec.c:90-120): the return value and what is printed.
`none` when the conversion has no result. -/
def exec_get (fl : FloatOps) (field : LIGHT_FIELD) (mode : LIGHT_VAL_MODE)
    (curr max mincap : Int) : Option (Bool × List OutLine) :=
  if max = 0 then some (false, [])
  else
    let shown (raw : Int) : Option (Bool × List OutLine) :=
      match value_from_raw fl mode (u64 raw) (u64 max) with
      | none => none
      | some v =>
        let val := i64 v
        if mode = LIGHT_RAW then some (true, [OutLine.raw_value val])
        else some (true, [OutLine.pct_value val])
    match field with
    | LIGHT_BRIGHTNESS => shown curr
    | LIGHT_MAX_BRIGHTNESS => shown max
    | LIGHT_MIN_CAP => shown mincap
    | LIGHT_SAVERESTORE => some (true, [])

/-- The raw value `exec_set` reads as the current one (exec.c:140-143). -/
def exec_set_curr (conf : light_conf) (w : World) : Int :=
  if conf.field = LIGHT_MIN_CAP then exec_get_min conf w else light_fetch conf conf.field w

/-- The logical target of `exec_set` (exec.c:153-172): `none` where the
function returns false, otherwise the value of `new_value` after the switch. -/
def exec_set_target (field : LIGHT_FIELD) (op_mode : LIGHT_OP_MODE)
    (new_value curr_value : Int) : Option Int :=
  if field = LIGHT_BRIGHTNESS then
    match op_mode with
    | LIGHT_SUB =>
      let negated := if new_value > curr_value then wrap64 (-curr_value) else wrap64 (-new_value)
      some (wrap64 (negated + curr_value))
    | LIGHT_ADD => some (wrap64 (new_value + curr_value))
    | LIGHT_SET => some new_value
    | _ => none
  else if field ≠ LIGHT_MIN_CAP then none
  else some new_value

/-- The raw value `exec_set` hands to `file_write` (exec.c:174-180) for a
logical target `new_value`. -/
def exec_set_raw (fl : FloatOps) (mode : LIGHT_VAL_MODE) (op_mode : LIGHT_OP_MODE)
    (new_value curr_raw max mincap : Int) : Int :=
  let new_raw := i64 (value_to_raw fl mode (u64 new_value) (u64 max))
  let new_raw := if op_mode = LIGHT_ADD ∧ new_raw ≤ curr_raw then wrap64 (new_raw + 1) else new_raw
  i64 (value_clamp (u64 new_raw) (u64 mincap) (u64 max))

/-- Function `exec_set` (exec.c:132-183).  `none` when a conversion has no result.
The call of `exec_open` (exec.c:72-76: `file_open` on the path, `-1` without
a path) is written out, so that the path stays at hand for `file_write`. -/
def exec_set (conf : light_conf) (max mincap : Int) (w : World) : Option (Bool × World) :=
  match light_path_new conf conf.field w with
  | none => some (false, w)
  | some path =>
    let fd := file_open w path
    if fd < 0 then some (false, w)
    else
      let curr_raw := exec_set_curr conf w
      if curr_raw < 0 then some (false, w)
      else
        match value_from_raw w.fl conf.val_mode (u64 curr_raw) (u64 max) with
        | none => none
        | some cv =>
          let curr_value := i64 cv
          match exec_set_target conf.field conf.op_mode conf.value curr_value with
          | none => some (false, w)
          | some new_value =>
            let new_raw := exec_set_raw w.fl conf.val_mode conf.op_mode new_value curr_raw max mincap
            some (file_write w path fd curr_raw new_raw conf.usec)

/-- Function `exec_write` (exec.c:344-349), with `exec_open` written out as in `exec_set`. -/
def exec_write (conf : light_conf) (field : LIGHT_FIELD) (val_old val_new : Int)
    (w : World) : Bool × World :=
  match light_path_new conf field w with
  | none => (false, w)
  | some path =>
    let fd := file_open w path
    if fd > 0 then file_write w path fd val_old val_new conf.usec else (false, w)

/-- Function `exec_restore` (exec.c:371-380); the configuration object is modified
before the value is tested. -/
def exec_restore (conf : light_conf) (max mincap : Int) (w : World) : Option Res :=
  let val := light_fetch conf LIGHT_SAVERESTORE w
  let conf1 := { conf with value := val, val_mode := LIGHT_RAW, op_mode := LIGHT_SET }
  if val ≥ 0 then
    match exec_set conf1 max mincap w with
    | none => none
    | some (ret, w1) => some ⟨ret, conf1, w1⟩
  else some ⟨false, conf1, w⟩

/-- Function `info_print` (info.c:18-38, with the operation mode passed in as exec.c
does): whether the mode is an information mode, and, when `exec` is set, the
world after printing. -/
def info_print (op_mode : LIGHT_OP_MODE) (exec : Bool) (w : World) : Bool × World :=
  match op_mode with
  | LIGHT_PRINT_HELP => (true, if exec then w.print [OutLine.help] else w)
  | LIGHT_PRINT_VERSION => (true, if exec then w.print [OutLine.version] else w)
  | LIGHT_LIST_CTRL =>
    (true, if exec then
      match w.dir with
      | none => w
      | some cs => w.print (cs.map OutLine.list_entry)
    else w)
  | _ => (false, w)

/-- The part of `exec_op` after the controller-mode test (exec.c:238-264):
`exec_init` and the switch on the operation mode. -/
def exec_dispatch (conf : light_conf) (w : World) : Option Res :=
  match exec_init conf w with
  | none => some ⟨false, conf, w⟩
  | some (curr, max, mincap) =>
    match conf.op_mode with
    | LIGHT_GET =>
      match exec_get w.fl conf.field conf.val_mode curr max mincap with
      | none => none
      | some (ret, lines) => some ⟨ret, conf, w.print lines⟩
    | LIGHT_SAVE =>
      let r := exec_write conf LIGHT_SAVERESTORE curr curr w
      some ⟨r.1, conf, r.2⟩
    | LIGHT_RESTORE => exec_restore conf max mincap w
    | LIGHT_SET | LIGHT_SUB | LIGHT_ADD =>
      match exec_set conf max mincap w with
      | none => none
      | some (ret, w1) => some ⟨ret, conf, w1⟩
    | _ => some ⟨false, conf, w.print [OutLine.help]⟩

/-- Function `exec_op` (exec.c:226-265) as `exec_all` calls it: the controller mode has
just been set to `LIGHT_CTRL_SPECIFY`, so the branch to `exec_all` is not taken. -/
def exec_op_ctrl (conf : light_conf) (w : World) : Option Res :=
  if (info_print conf.op_mode false w).1 then
    let r := info_print conf.op_mode true w
    some ⟨r.1, conf, r.2⟩
  else exec_dispatch conf w

/-- The loop of `exec_all` (exec.c:207-213) over the names the iterator yields. -/
def exec_all_loop (conf : light_conf) (w : World) (ret : Bool) : List String → Option Res
  | [] => some ⟨ret, { conf with ctrl := none }, w⟩
  | c :: cs =>
    let conf1 := { conf with ctrl := some c }
    let w1 := if conf1.op_mode = LIGHT_GET then w.print [OutLine.ctrl_tab c] else w
    match exec_op_ctrl conf1 w1 with
    | none => none
    | some r => exec_all_loop r.conf r.world (if r.ret then ret else false) cs

/-- Function `exec_all` (exec.c:194-216). -/
def exec_all (conf : light_conf) (w : World) : Option Res :=
  match w.dir with
  | none => some ⟨false, conf, w⟩
  | some cs => exec_all_loop { conf with ctrl_mode := LIGHT_CTRL_SPECIFY } w true cs

/-- Function `exec_op` (exec.c:226-265). -/
def exec_op (conf : light_conf) (w : World) : Option Res :=
  if (info_print conf.op_mode false w).1 then
    let r := info_print conf.op_mode true w
    some ⟨r.1, conf, r.2⟩
  else if conf.ctrl_mode = LIGHT_CTRL_ALL then exec_all conf w
  else exec_dispatch conf w

/-! ## Reference definitions and fixtures -/

/-- The quotient `num / den` rounded to the nearest integer (halves upwards),
the reading of "rounded" in the description of the percent conversion. -/
def round_nearest_div (num den : Nat) : Nat := (2 * num + den) / (2 * den)

/-- A floating-point library for runs that never use the exponential mode. -/
def no_float : FloatOps := ⟨fun _ _ => 0, fun _ _ => 0⟩

/-- The files of a controller with the given readings (brightness, maximum,
mincap cache, saved brightness) on which every open and write succeeds. -/
def demo_files (b m c s : Int) : CtrlFiles := ⟨b, m, c, s, fun _ => 3, fun _ => true⟩

/-- A world in which every controller has the files `demo_files b m c s`, the
directory lists `names`, and nothing was written or printed yet. -/
def demo_world (names : List String) (b m c s : Int) : World :=
  ⟨no_float, fun _ => true, some names, fun _ => demo_files b m c s, [], []⟩

/-- A configuration for the controller `name`, without cached maximum or delay. -/
def demo_conf (name : String) (op : LIGHT_OP_MODE) (vm : LIGHT_VAL_MODE)
    (f : LIGHT_FIELD) (v : Int) : light_conf :=
  ⟨LIGHT_CTRL_SPECIFY, some name, op, vm, f, v, 0, 0⟩

/-- The configuration `exec_all` runs `exec_op` on for the controller `c`. -/
def ctrl_conf (conf : light_conf) (c : String) : light_conf :=
  { conf with ctrl_mode := LIGHT_CTRL_SPECIFY, ctrl := some c }

/-- What `exec_op` alone prints for the controller `c` in the world `w`. -/
def ctrl_lines (conf : light_conf) (w : World) (c : String) : List OutLine :=
  match exec_op (ctrl_conf conf c) w with
  | some r => r.world.out.drop w.out.length
  | none => []

/-- The return value and the output of a Get (`exec_init`, then `exec_get`),
as a function of the configuration and the files. -/
def get_outcome (conf : light_conf) (w : World) : Option (Bool × List OutLine) :=
  match exec_init conf w with
  | none => some (false, [])
  | some (curr, max, mincap) => exec_get w.fl conf.field conf.val_mode curr max mincap

/-- Two controllers: `a` reports a maximum of 0 (a Get on it fails), `b` has
brightness 100 of 255. -/
def two_ctrl_world : World :=
  ⟨no_float, fun _ => true, some ["a", "b"],
    fun name => if name = "a" then demo_files 7 0 0 (-2) else demo_files 100 255 0 (-2), [], []⟩

/-- Two controllers with `max = 255`, `mincap = 0` and different saved values:
`a` has brightness 10 and saved value 40, `b` has brightness 20 and saved
value 200. -/
def two_saved_world : World :=
  ⟨no_float, fun _ => true, some ["a", "b"],
    fun name => if name = "a" then demo_files 10 255 0 40 else demo_files 20 255 0 200, [], []⟩

/-- As `two_saved_world`, but the save-restore cache of `a` cannot be read. -/
def first_unsaved_world : World :=
  ⟨no_float, fun _ => true, some ["a", "b"],
    fun name => if name = "a" then demo_files 10 255 0 (-2) else demo_files 20 255 0 200, [], []⟩

/-- A Restore of the brightness over all controllers. -/
def restore_all_conf : light_conf :=
  ⟨LIGHT_CTRL_ALL, none, LIGHT_RESTORE, LIGHT_PERCENT, LIGHT_BRIGHTNESS, 0, 0, 0⟩

/-- The multi-controller driver as the specification words it: `exec_op` is
invoked once for each controller, in order and whatever the earlier results
were, with the requested configuration and the controller selection forced to
"specify"; for a Get the controller name and a tab are printed first.  The
return values are collected in order; `none` when a call has no result. -/
def run_each (conf : light_conf) (w : World) : List String → Option (List Bool × World)
  | [] => some ([], w)
  | c :: cs =>
    match exec_op (ctrl_conf conf c)
        (if conf.op_mode = LIGHT_GET then w.print [OutLine.ctrl_tab c] else w) with
    | none => none
    | some r =>
      match run_each conf r.world cs with
      | none => none
      | some (bs, w1) => some (r.ret :: bs, w1)

/-- Two controllers with `max = 255` and `mincap = 0`: the brightness of `a`
cannot be read, `b` has brightness 20. -/
def first_dead_world : World :=
  ⟨no_float, fun _ => true, some ["a", "b"],
    fun name => if name = "a" then demo_files (-2) 255 0 (-2) else demo_files 20 255 0 200, [], []⟩

/-! ## Machine-integer and clamp lemmas -/

theorem u64_of_nonneg {x : Int} (h0 : 0 ≤ x) (h1 : x < 18446744073709551616) :
    u64 x = x.toNat := by
  unfold u64; omega

theorem u64_lt (x : Int) : u64 x < 18446744073709551616 := by
  unfold u64; omega

theorem i64_of_lt {n : Nat} (h : n < 9223372036854775808) : i64 n = (n : Int) := by
  unfold i64; split <;> omega

theorem wrap64_of_isInt64 {x : Int} (h : isInt64 x) : wrap64 x = x := by
  unfold isInt64 at h; unfold wrap64 i64 u64; split <;> omega

theorem isInt64_i64 (n : Nat) : isInt64 (i64 n) := by
  unfold isInt64 i64; split <;> omega

theorem value_clamp_le (val : Nat) {min max : Nat} (h : min ≤ max) : value_clamp val min max ≤ max := by
  unfold value_clamp; split_ifs <;> omega

theorem le_value_clamp (val : Nat) {min max : Nat} (h : min ≤ max) : min ≤ value_clamp val min max := by
  unfold value_clamp; split_ifs <;> omega

theorem value_clamp_of_mem {val min max : Nat} (h1 : min ≤ val) (h2 : val ≤ max) :
    value_clamp val min max = val := by
  unfold value_clamp; split_ifs <;> omega

/-! ## The percent conversion -/

theorem value_from_raw_percent (fl : FloatOps) {raw max : Nat} (hmax : 1 ≤ max) :
    value_from_raw fl LIGHT_PERCENT raw max
      = some (VALUE_CLAMP_PCT ((raw * VALUE_PCT_MAX) % 18446744073709551616 / max)) := by
  have : max ≠ 0 := by omega
  simp [value_from_raw, this]

theorem pct_div_le {raw max : Nat} (hraw : raw ≤ max) : raw * 10000 / max ≤ 10000 := by
  apply Nat.div_le_of_le_mul
  nlinarith

theorem value_from_raw_percent_exact (fl : FloatOps) {raw max : Nat} (hmax : 1 ≤ max)
    (hraw : raw ≤ max) (hno : raw * 10000 < 18446744073709551616) :
    value_from_raw fl LIGHT_PERCENT raw max = some (raw * 10000 / max) := by
  rw [value_from_raw_percent fl hmax]
  simp only [VALUE_CLAMP_PCT, VALUE_PCT_MAX]
  rw [Nat.mod_eq_of_lt hno, value_clamp_of_mem (Nat.zero_le _) (pct_div_le hraw)]

theorem value_from_raw_percent_le (fl : FloatOps) {raw max v : Nat}
    (h : value_from_raw fl LIGHT_PERCENT raw max = some v) : v ≤ 10000 := by
  unfold value_from_raw at h
  simp only at h
  split_ifs at h
  simp only [Option.some.injEq] at h
  rw [← h]
  exact value_clamp_le _ (Nat.zero_le _)

/-- C5, counterexample: with `max = 100000` the raw value 55555 becomes
55.55% and comes back as 55550, five units away. -/
theorem percent_round_trip_off_by_five :
    value_from_raw no_float LIGHT_PERCENT 55555 100000 = some 5555 ∧
    value_to_raw no_float LIGHT_PERCENT 5555 100000 = 55550 ∧
    ¬ (55555 ≤ value_to_raw no_float LIGHT_PERCENT 5555 100000 + 1) := by
  decide

/-- C5, amended: for `1 ≤ max` with `max * 10000 < 2^64` and `raw ≤ max`, the
percent round trip never exceeds `raw` and falls short of it by less than
`max / 10000 + 1`; for `max ≤ 10000` it is `raw` or `raw - 1`. -/
theorem percent_round_trip_bound (fl : FloatOps) (raw max : Nat) (hmax : 1 ≤ max)
    (hraw : raw ≤ max) (hno : max * 10000 < 18446744073709551616) :
    ∃ v, value_from_raw fl LIGHT_PERCENT raw max = some v ∧
      value_to_raw fl LIGHT_PERCENT v max ≤ raw ∧
      (raw - value_to_raw fl LIGHT_PERCENT v max) * 10000 < max + 10000 ∧
      (max ≤ 10000 → raw ≤ value_to_raw fl LIGHT_PERCENT v max + 1) := by
  have hno2 : raw * 10000 < 18446744073709551616 := by omega
  refine ⟨_, value_from_raw_percent_exact fl hmax hraw hno2, ?_⟩
  simp only [value_to_raw, VALUE_PCT_MAX]
  have h1 := Nat.div_add_mod (raw * 10000) max
  have h2 := Nat.mod_lt (raw * 10000) (show 0 < max by omega)
  have hc : raw * 10000 / max * max = max * (raw * 10000 / max) := Nat.mul_comm _ _
  have hle : raw * 10000 / max * max ≤ raw * 10000 := by omega
  rw [Nat.mod_eq_of_lt (by omega)]
  have h3 := Nat.div_add_mod (raw * 10000 / max * max) 10000
  have h4 := Nat.mod_lt (raw * 10000 / max * max) (show 0 < 10000 by omega)
  exact ⟨by omega, by omega, fun _ => by omega⟩

/-- C5, witness: `max = 255`, `raw = 100`. -/
theorem percent_round_trip_bound_witness :
    ∃ v, value_from_raw no_float LIGHT_PERCENT 100 255 = some v ∧
      value_to_raw no_float LIGHT_PERCENT v 255 ≤ 100 ∧
      (100 - value_to_raw no_float LIGHT_PERCENT v 255) * 10000 < 255 + 10000 ∧
      100 ≤ value_to_raw no_float LIGHT_PERCENT v 255 + 1 :=
  (percent_round_trip_bound no_float 100 255 (by decide) (by decide) (by decide)).imp
    (fun _ h => ⟨h.1, h.2.1, h.2.2.1, h.2.2.2 (by decide)⟩)

/-- C10, counterexample: for `raw = 2`, `max = 3` the quotient 6666.67 is
converted to 6666, while the nearest integer is 6667. -/
theorem value_from_raw_percent_not_nearest :
    value_from_raw no_float LIGHT_PERCENT 2 3 = some 6666 ∧
    round_nearest_div (2 * 10000) 3 = 6667 ∧
    ¬ (value_from_raw no_float LIGHT_PERCENT 2 3 = some (round_nearest_div (2 * 10000) 3)) := by
  decide

/-- C10, amended: for `max ≥ 1` and `raw ≤ max` the percent value lies in
`[0, 10000]`, and when `raw * 10000` fits in 64 bits it is the quotient
`raw * 10000 / max` truncated towards zero. -/
theorem value_from_raw_percent_truncates (fl : FloatOps) (raw max : Nat) (hmax : 1 ≤ max)
    (hraw : raw ≤ max) :
    ∃ v, value_from_raw fl LIGHT_PERCENT raw max = some v ∧ v ≤ 10000 ∧
      (raw * 10000 < 18446744073709551616 →
        v = raw * 10000 / max ∧ v * max ≤ raw * 10000 ∧ raw * 10000 < (v + 1) * max) := by
  refine ⟨_, value_from_raw_percent fl hmax, value_clamp_le _ (Nat.zero_le _), ?_⟩
  intro h
  simp only [VALUE_CLAMP_PCT, VALUE_PCT_MAX]
  rw [Nat.mod_eq_of_lt h, value_clamp_of_mem (Nat.zero_le _) (pct_div_le hraw)]
  have h1 := Nat.div_add_mod (raw * 10000) max
  have h2 := Nat.mod_lt (raw * 10000) (show 0 < max by omega)
  have hc : raw * 10000 / max * max = max * (raw * 10000 / max) := Nat.mul_comm _ _
  refine ⟨rfl, by omega, ?_⟩
  rw [Nat.add_mul]
  omega

/-- C10, witness: `raw = 2`, `max = 3`. -/
theorem value_from_raw_percent_truncates_witness :
    ∃ v, value_from_raw no_float LIGHT_PERCENT 2 3 = some v ∧ v ≤ 10000 ∧
      v = 2 * 10000 / 3 ∧ v * 3 ≤ 2 * 10000 ∧ 2 * 10000 < (v + 1) * 3 :=
  (value_from_raw_percent_truncates no_float 2 3 (by decide) (by decide)).imp
    (fun _ h => ⟨h.1, h.2.1, h.2.2 (by decide)⟩)

/-! ## The executor -/

theorem light_fetch_some (conf : light_conf) (w : World) {c : String} (f : LIGHT_FIELD)
    (hc : conf.ctrl = some c) (hp : w.path_ok c = true) :
    light_fetch conf f w = (w.files c).read f := by
  simp [light_fetch, light_path_new, hc, hp, file_read]

theorem exec_get_min_nonneg (conf : light_conf) (w : World) : 0 ≤ exec_get_min conf w := by
  unfold exec_get_min
  simp only
  split_ifs <;> omega

/-- What `exec_set` can do: fail without writing, or commit exactly one value,
the one computed by `exec_set_target` and `exec_set_raw`. -/
theorem exec_set_cases {conf : light_conf} {max mincap : Int} {w : World} {r : Bool × World}
    (h : exec_set conf max mincap w = some r) :
    r = (false, w) ∨
    ∃ c cv t, conf.ctrl = some c ∧ 0 ≤ exec_set_curr conf w ∧
      value_from_raw w.fl conf.val_mode (u64 (exec_set_curr conf w)) (u64 max) = some cv ∧
      exec_set_target conf.field conf.op_mode conf.value (i64 cv) = some t ∧
      r = (true, w.commit c conf.field (exec_set_curr conf w)
            (exec_set_raw w.fl conf.val_mode conf.op_mode t (exec_set_curr conf w) max mincap)) := by
  unfold exec_set at h
  cases hc : conf.ctrl with
  | none => simp [light_path_new, hc] at h; exact Or.inl h.symm
  | some c =>
    by_cases hp : w.path_ok c = true
    · simp only [light_path_new, hc, hp, if_true] at h
      split_ifs at h with h1 h2
      · simp at h; exact Or.inl h.symm
      · simp at h; exact Or.inl h.symm
      · split at h
        · simp at h
        · rename_i cv hcv
          split at h
          · simp at h; exact Or.inl h.symm
          · rename_i t ht
            simp only [Option.some.injEq, file_write] at h
            split_ifs at h with h3
            · right
              exact ⟨c, cv, t, rfl, by omega, hcv, ht, h.symm⟩
            · exact Or.inl h.symm
    · simp [light_path_new, hc, hp] at h; exact Or.inl h.symm

/-- When the path, the open and the write succeed and the current value is
readable, `exec_set` commits the value computed by `exec_set_raw`. -/
theorem exec_set_commits (conf : light_conf) (max mincap : Int) (w : World) {c : String}
    {cv : Nat} {t : Int}
    (hc : conf.ctrl = some c) (hp : w.path_ok c = true)
    (hfd : 0 ≤ (w.files c).fd conf.field) (hw : (w.files c).write_ok conf.field = true)
    (hcurr : 0 ≤ exec_set_curr conf w)
    (hcv : value_from_raw w.fl conf.val_mode (u64 (exec_set_curr conf w)) (u64 max) = some cv)
    (ht : exec_set_target conf.field conf.op_mode conf.value (i64 cv) = some t) :
    exec_set conf max mincap w =
      some (true, w.commit c conf.field (exec_set_curr conf w)
        (exec_set_raw w.fl conf.val_mode conf.op_mode t (exec_set_curr conf w) max mincap)) := by
  unfold exec_set
  have h1 : ¬ file_open w (c, conf.field) < 0 := by simp only [file_open]; omega
  have h2 : ¬ exec_set_curr conf w < 0 := by omega
  simp [light_path_new, hc, hp, h1, h2, hcv, ht, file_write, hw]

theorem exec_set_raw_bounds (fl : FloatOps) (mode : LIGHT_VAL_MODE) (op : LIGHT_OP_MODE)
    (t curr_raw : Int) {max mincap : Int} (h0 : 0 ≤ mincap) (h1 : mincap ≤ max)
    (h2 : isInt64 max) :
    mincap ≤ exec_set_raw fl mode op t curr_raw max mincap ∧
    exec_set_raw fl mode op t curr_raw max mincap ≤ max := by
  unfold isInt64 at h2
  unfold exec_set_raw
  simp only
  generalize u64 (if op = LIGHT_ADD ∧ i64 (value_to_raw fl mode (u64 t) (u64 max)) ≤ curr_raw
    then wrap64 (i64 (value_to_raw fl mode (u64 t) (u64 max)) + 1)
    else i64 (value_to_raw fl mode (u64 t) (u64 max))) = x
  have hm : u64 mincap = mincap.toNat := u64_of_nonneg h0 (by omega)
  have hM : u64 max = max.toNat := u64_of_nonneg (by omega) (by omega)
  have hle : u64 mincap ≤ u64 max := by omega
  have ha := le_value_clamp x hle
  have hb := value_clamp_le x hle
  rw [i64_of_lt (by omega)]
  omega

/-- The maximum `exec_init` uses (exec.c:27-29). -/
theorem exec_init_full {conf : light_conf} {w : World} {curr max mincap : Int}
    (h : exec_init conf w = some (curr, max, mincap))
    (hf : conf.field = LIGHT_BRIGHTNESS ∨ conf.field = LIGHT_SAVERESTORE ∨
      (conf.field = LIGHT_MIN_CAP ∧ conf.op_mode ≠ LIGHT_SET)) :
    curr = light_fetch conf LIGHT_BRIGHTNESS w ∧ 0 ≤ curr ∧
    mincap = exec_get_min conf w ∧ 0 ≤ mincap ∧ mincap ≤ max := by
  unfold exec_init at h
  simp only at h
  have hsp : ¬ ((conf.field = LIGHT_MIN_CAP ∧ conf.op_mode = LIGHT_SET) ∨
      conf.field = LIGHT_MAX_BRIGHTNESS) := by
    rcases hf with hf | hf | hf
    · simp [hf]
    · simp [hf]
    · simp [hf.1, hf.2]
  split_ifs at h <;>
  · simp only [Option.some.injEq, Prod.mk.injEq] at h
    obtain ⟨rfl, rfl, rfl⟩ := h
    exact ⟨rfl, by omega, rfl, by omega, by omega⟩

theorem exec_op_eq_dispatch {conf : light_conf} (w : World)
    (hop : conf.op_mode ≠ LIGHT_PRINT_HELP ∧ conf.op_mode ≠ LIGHT_PRINT_VERSION ∧
      conf.op_mode ≠ LIGHT_LIST_CTRL)
    (hmode : conf.ctrl_mode ≠ LIGHT_CTRL_ALL) :
    exec_op conf w = exec_dispatch conf w := by
  unfold exec_op
  have : (info_print conf.op_mode false w).1 = false := by
    unfold info_print
    cases h : conf.op_mode <;> simp_all
  simp [this, hmode]

/-- On a configuration whose controller mode is not "all", `exec_op` is the
function `exec_all` calls in its loop. -/
theorem exec_op_eq_ctrl (conf : light_conf) (w : World)
    (hmode : conf.ctrl_mode ≠ LIGHT_CTRL_ALL) : exec_op conf w = exec_op_ctrl conf w := by
  unfold exec_op exec_op_ctrl
  simp [hmode]

/-- The function `exec_set` has a result unless the percent conversion divides by zero. -/
theorem exec_set_isSome (conf : light_conf) (max mincap : Int) (w : World)
    (h : conf.val_mode = LIGHT_PERCENT → 1 ≤ u64 max) :
    ∃ p, exec_set conf max mincap w = some p := by
  unfold exec_set
  cases light_path_new conf conf.field w with
  | none => exact ⟨_, rfl⟩
  | some path =>
    simp only
    split_ifs
    · exact ⟨_, rfl⟩
    · exact ⟨_, rfl⟩
    · have hcv : ∃ cv, value_from_raw w.fl conf.val_mode (u64 (exec_set_curr conf w)) (u64 max)
          = some cv := by
        cases hvm : conf.val_mode
        · exact ⟨_, rfl⟩
        · exact ⟨_, value_from_raw_percent w.fl (h hvm)⟩
        · exact ⟨_, rfl⟩
      obtain ⟨cv, hcv⟩ := hcv
      rw [hcv]
      simp only
      cases exec_set_target conf.field conf.op_mode conf.value (i64 cv) with
      | none => exact ⟨_, rfl⟩
      | some t => exact ⟨_, rfl⟩

/-- C2: when `exec_init` succeeds with `(curr, max, mincap)`, then `mincap ≤ max`,
and a Set, Add, Sub or Restore on the brightness field has a result when
`max ≥ 1`, and in every result it has written nothing or committed one value
`v` to the brightness file with `mincap ≤ v ≤ max`; with `max = 100`,
`mincap = 100`, `current = 100`, Set 50% commits 100. -/
theorem exec_commit_within_bounds (conf : light_conf) (w : World) (curr max mincap : Int)
    (hfield : conf.field = LIGHT_BRIGHTNESS)
    (hop : conf.op_mode = LIGHT_SET ∨ conf.op_mode = LIGHT_ADD ∨ conf.op_mode = LIGHT_SUB ∨
      conf.op_mode = LIGHT_RESTORE)
    (hmode : conf.ctrl_mode ≠ LIGHT_CTRL_ALL)
    (hinit : exec_init conf w = some (curr, max, mincap))
    (hmax : isInt64 max) :
    mincap ≤ max ∧
    (1 ≤ max → ∃ r, exec_op conf w = some r) ∧
    (∀ r, exec_op conf w = some r →
      r.world.writes = w.writes ∨
      ∃ c v, r.world.writes = w.writes ++ [⟨c, LIGHT_BRIGHTNESS, curr, v⟩] ∧
        mincap ≤ v ∧ v ≤ max) ∧
    (exec_op (demo_conf "a" LIGHT_SET LIGHT_PERCENT LIGHT_BRIGHTNESS 5000)
        (demo_world ["a"] 100 100 100 (-2))).map (fun r => (r.ret, r.world.writes))
      = some (true, [⟨"a", LIGHT_BRIGHTNESS, 100, 100⟩]) := by
  obtain ⟨hcurr, -, -, hm0, hm1⟩ := exec_init_full hinit (Or.inl hfield)
  have hdisp := @exec_op_eq_dispatch conf w
    (by rcases hop with h | h | h | h <;> simp [h]) hmode
  refine ⟨hm1, ?_, ?_, by decide⟩
  · intro h1
    have hM : ∀ c1 : light_conf, c1.val_mode = LIGHT_PERCENT → 1 ≤ u64 max := by
      intro _ _
      unfold isInt64 at hmax
      rw [u64_of_nonneg (by omega) (by omega)]; omega
    rw [hdisp]
    unfold exec_dispatch
    rw [hinit]
    simp only
    have hs : ∃ r, (match exec_set conf max mincap w with
        | none => none
        | some (ret, w1) => some (⟨ret, conf, w1⟩ : Res)) = some r := by
      obtain ⟨p, hp⟩ := exec_set_isSome conf max mincap w (hM conf)
      rw [hp]; exact ⟨_, rfl⟩
    rcases hop with h | h | h | h
    · rw [h]; exact hs
    · rw [h]; exact hs
    · rw [h]; exact hs
    · rw [h]
      simp only [exec_restore]
      split_ifs
      · obtain ⟨p, hp⟩ := exec_set_isSome
          { conf with value := light_fetch conf LIGHT_SAVERESTORE w, val_mode := LIGHT_RAW,
                      op_mode := LIGHT_SET } max mincap w (hM _)
        rw [hp]; exact ⟨_, rfl⟩
      · exact ⟨_, rfl⟩
  intro r hr
  rw [hdisp] at hr
  unfold exec_dispatch at hr
  rw [hinit] at hr
  simp only at hr
  have key : ∀ (conf1 : light_conf) (p : Bool × World), conf1.field = LIGHT_BRIGHTNESS →
      conf1.ctrl = conf.ctrl →
      exec_set conf1 max mincap w = some p →
      (p.2.writes = w.writes ∨
        ∃ c v, p.2.writes = w.writes ++ [⟨c, LIGHT_BRIGHTNESS, curr, v⟩] ∧
          mincap ≤ v ∧ v ≤ max) := by
    intro conf1 p hf1 hc1 hp
    rcases exec_set_cases hp with rfl | ⟨c, cv, t, hc, -, -, -, rfl⟩
    · exact Or.inl rfl
    · right
      refine ⟨c, exec_set_raw w.fl conf1.val_mode conf1.op_mode t (exec_set_curr conf1 w)
        max mincap, ?_, exec_set_raw_bounds _ _ _ _ _ hm0 hm1 hmax⟩
      have : exec_set_curr conf1 w = curr := by
        rw [hcurr]; unfold exec_set_curr
        simp [hf1, light_fetch, light_path_new, hc1]
      simp [World.commit, hf1, this]
  have hset : ∀ r : Res, (match exec_set conf max mincap w with
      | none => none
      | some (ret, w1) => some (⟨ret, conf, w1⟩ : Res)) = some r →
      (r.world.writes = w.writes ∨
        ∃ c v, r.world.writes = w.writes ++ [⟨c, LIGHT_BRIGHTNESS, curr, v⟩] ∧
          mincap ≤ v ∧ v ≤ max) := by
    intro r hr
    split at hr
    · simp at hr
    · rename_i ret w1 hs
      simp only [Option.some.injEq] at hr
      subst hr
      exact key conf (ret, w1) hfield rfl hs
  rcases hop with h | h | h | h
  · rw [h] at hr; exact hset r hr
  · rw [h] at hr; exact hset r hr
  · rw [h] at hr; exact hset r hr
  · rw [h] at hr
    simp only [exec_restore] at hr
    split_ifs at hr with hv
    · split at hr
      · simp at hr
      · rename_i ret w1 hs
        simp only [Option.some.injEq] at hr
        subst hr
        refine key _ (ret, w1) ?_ ?_ hs
        · exact hfield
        · rfl
    · simp only [Option.some.injEq] at hr
      subst hr
      exact Or.inl rfl

/-- C2, witness: `max = 255`, `mincap = 0`, `current = 100`, Add 10%, which
commits 125. -/
theorem exec_commit_within_bounds_witness :
    (0 : Int) ≤ 255 ∧
    (∃ r, exec_op (demo_conf "a" LIGHT_ADD LIGHT_PERCENT LIGHT_BRIGHTNESS 1000)
      (demo_world ["a"] 100 255 0 (-2)) = some r) ∧
    (((demo_world ["a"] 100 255 0 (-2)).commit "a" LIGHT_BRIGHTNESS 100 125).writes
        = (demo_world ["a"] 100 255 0 (-2)).writes ∨
      ∃ c v, ((demo_world ["a"] 100 255 0 (-2)).commit "a" LIGHT_BRIGHTNESS 100 125).writes
          = (demo_world ["a"] 100 255 0 (-2)).writes ++ [⟨c, LIGHT_BRIGHTNESS, 100, v⟩] ∧
        0 ≤ v ∧ v ≤ 255) ∧
    (exec_op (demo_conf "a" LIGHT_SET LIGHT_PERCENT LIGHT_BRIGHTNESS 5000)
        (demo_world ["a"] 100 100 100 (-2))).map (fun r => (r.ret, r.world.writes))
      = some (true, [⟨"a", LIGHT_BRIGHTNESS, 100, 100⟩]) :=
  (fun h => ⟨h.1, h.2.1 (by decide),
      h.2.2.1 ⟨true, demo_conf "a" LIGHT_ADD LIGHT_PERCENT LIGHT_BRIGHTNESS 1000,
        (demo_world ["a"] 100 255 0 (-2)).commit "a" LIGHT_BRIGHTNESS 100 125⟩ rfl, h.2.2.2⟩)
    (exec_commit_within_bounds (demo_conf "a" LIGHT_ADD LIGHT_PERCENT LIGHT_BRIGHTNESS 1000)
      (demo_world ["a"] 100 255 0 (-2)) 100 255 0
      rfl (Or.inr (Or.inl rfl)) (by decide) rfl (by decide))

theorem exec_set_curr_brightness (conf : light_conf) (w : World) {c : String}
    (hf : conf.field = LIGHT_BRIGHTNESS) (hc : conf.ctrl = some c) (hp : w.path_ok c = true) :
    exec_set_curr conf w = (w.files c).brightness := by
  unfold exec_set_curr
  rw [hf, if_neg (by decide), light_fetch_some conf w _ hc hp]
  rfl

/-- The current logical value in raw or percent mode is a small non-negative number. -/
theorem curr_value_bounds (fl : FloatOps) {mode : LIGHT_VAL_MODE} {curr max : Int}
    (hvm : mode = LIGHT_RAW ∨ mode = LIGHT_PERCENT) (hmax1 : 1 ≤ max) (hmaxI : isInt64 max)
    (hc0 : 0 ≤ curr) (hc1 : curr ≤ max) :
    ∃ cv, value_from_raw fl mode (u64 curr) (u64 max) = some cv ∧ cv < 9223372036854775808 ∧
      (mode = LIGHT_RAW → (cv : Int) = curr) ∧ (mode = LIGHT_PERCENT → cv ≤ 10000) := by
  unfold isInt64 at hmaxI
  rcases hvm with h | h
  · subst h
    refine ⟨u64 curr, rfl, ?_, ?_, ?_⟩
    · rw [u64_of_nonneg hc0 (by omega)]; omega
    · intro _; rw [u64_of_nonneg hc0 (by omega)]; omega
    · intro h; exact absurd h (by decide)
  · subst h
    have hM : 1 ≤ u64 max := by rw [u64_of_nonneg (by omega) (by omega)]; omega
    refine ⟨_, value_from_raw_percent fl hM, ?_, ?_, ?_⟩
    · have := value_clamp_le ((u64 curr * VALUE_PCT_MAX) % 18446744073709551616 / u64 max)
        (Nat.zero_le VALUE_PCT_MAX)
      simp only [VALUE_CLAMP_PCT, VALUE_PCT_MAX] at this ⊢
      omega
    · intro h; exact absurd h (by decide)
    · intro _; exact value_clamp_le _ (Nat.zero_le _)

/-- The floor of Sub at work: with `max = 255`, `mincap = 10`, `current = 100`,
a Sub of 50% (more than the current 39.21%) commits 10, and a Sub of the raw
request `-5` commits 105. -/
theorem exec_set_sub_examples :
    (exec_set (demo_conf "a" LIGHT_SUB LIGHT_PERCENT LIGHT_BRIGHTNESS 5000) 255 10
        (demo_world ["a"] 100 255 10 (-2))).map (fun p => (p.1, p.2.writes))
      = some (true, [⟨"a", LIGHT_BRIGHTNESS, 100, 10⟩]) ∧
    (exec_set (demo_conf "a" LIGHT_SUB LIGHT_RAW LIGHT_BRIGHTNESS (-5)) 255 10
        (demo_world ["a"] 100 255 10 (-2))).map (fun p => (p.1, p.2.writes))
      = some (true, [⟨"a", LIGHT_BRIGHTNESS, 100, 105⟩]) := by
  decide

/-- C1, failing inputs: with `max = 100000`, `mincap = 0`, `current = 55555`, an
Add of 0 hundredths in percent mode commits 55551, below the current value;
with `max = 255`, `current = 100` it commits 100, no change. -/
theorem exec_set_add_zero_not_increasing :
    (exec_set (demo_conf "a" LIGHT_ADD LIGHT_PERCENT LIGHT_BRIGHTNESS 0) 100000 0
        (demo_world ["a"] 55555 100000 0 (-2))).map (fun p => (p.1, p.2.writes))
      = some (true, [⟨"a", LIGHT_BRIGHTNESS, 55555, 55551⟩]) ∧
    (exec_set (demo_conf "a" LIGHT_ADD LIGHT_PERCENT LIGHT_BRIGHTNESS 0) 255 0
        (demo_world ["a"] 100 255 0 (-2))).map (fun p => (p.1, p.2.writes))
      = some (true, [⟨"a", LIGHT_BRIGHTNESS, 100, 100⟩]) := by
  decide

/-- The increment forced by `exec_set` (exec.c:177-178) lifts the raw value
above the current one, unless the converted value is below it (and not a
wrapped-around negative number). -/
theorem add_bump_gt {z cur : Int} (hz : isInt64 z) (hcur0 : 0 ≤ cur)
    (hcur : cur < 9223372036854775807) (h : cur ≤ z ∨ z < -1) :
    cur.toNat < u64 (if z ≤ cur then wrap64 (z + 1) else z) := by
  unfold isInt64 at hz
  by_cases hle : z ≤ cur
  · rw [if_pos hle, wrap64_of_isInt64 (by unfold isInt64; omega)]
    unfold u64; omega
  · rw [if_neg hle]
    unfold u64; omega

theorem value_clamp_gt {x c min max : Nat} (hx : c < x) (hc : c < max) (hmin : min ≤ max) :
    c < value_clamp x min max ∧ value_clamp x min max ≤ max := by
  unfold value_clamp; split_ifs <;> omega

/-- The extent to which the increase guarantee of Add holds: in raw mode for
every non-negative increment, in percent mode for increments of at least one
hundredth (up to 100.00%) when `max * 20000` fits in 64 bits. -/
theorem exec_set_add_increases (conf : light_conf) (w : World) (c : String) (max mincap : Int)
    (hfield : conf.field = LIGHT_BRIGHTNESS) (hop : conf.op_mode = LIGHT_ADD)
    (hc : conf.ctrl = some c) (hp : w.path_ok c = true)
    (hfd : 0 ≤ (w.files c).fd LIGHT_BRIGHTNESS)
    (hw : (w.files c).write_ok LIGHT_BRIGHTNESS = true)
    (hmaxI : isInt64 max) (hmin0 : 0 ≤ mincap) (hmincap : mincap ≤ max)
    (hcur0 : 0 ≤ (w.files c).brightness) (hcur1 : (w.files c).brightness < max)
    (hvalI : isInt64 conf.value)
    (hvm : (conf.val_mode = LIGHT_RAW ∧ 0 ≤ conf.value) ∨
      (conf.val_mode = LIGHT_PERCENT ∧ 1 ≤ conf.value ∧ conf.value ≤ 10000 ∧
        max * 20000 < 18446744073709551616)) :
    ∃ v, exec_set conf max mincap w
        = some (true, w.commit c LIGHT_BRIGHTNESS (w.files c).brightness v) ∧
      (w.files c).brightness < v ∧ v ≤ max := by
  have hcurr := exec_set_curr_brightness conf w hfield hc hp
  have hvm2 : conf.val_mode = LIGHT_RAW ∨ conf.val_mode = LIGHT_PERCENT := by
    rcases hvm with h | h
    · exact Or.inl h.1
    · exact Or.inr h.1
  obtain ⟨cv, hcv, hcvlt, hcvraw, hcvpct⟩ :=
    curr_value_bounds w.fl hvm2 (by omega) hmaxI hcur0 (by omega)
  have hcvi : i64 cv = (cv : Int) := i64_of_lt hcvlt
  have ht : exec_set_target conf.field conf.op_mode conf.value (i64 cv)
      = some (wrap64 (conf.value + (cv : Int))) := by
    rw [hfield, hop, hcvi]; rfl
  have hset := exec_set_commits conf max mincap w hc hp (by rw [hfield]; exact hfd)
    (by rw [hfield]; exact hw) (by rw [hcurr]; exact hcur0) (by rw [hcurr]; exact hcv) ht
  rw [hcurr, hfield] at hset
  refine ⟨_, hset, ?_⟩
  generalize (w.files c).brightness = cur at *
  unfold isInt64 at hmaxI hvalI
  have hM : u64 max = max.toNat := u64_of_nonneg (by omega) (by omega)
  have hm : u64 mincap = mincap.toNat := u64_of_nonneg (by omega) (by omega)
  simp only [exec_set_raw, hop, true_and]
  rw [hM, hm]
  have fin : ∀ nr : Nat, (cur ≤ i64 nr ∨ i64 nr < -1) →
      cur < i64 (value_clamp (u64 (if i64 nr ≤ cur then wrap64 (i64 nr + 1) else i64 nr))
        mincap.toNat max.toNat) ∧
      i64 (value_clamp (u64 (if i64 nr ≤ cur then wrap64 (i64 nr + 1) else i64 nr))
        mincap.toNat max.toNat) ≤ max := by
    intro nr h
    have hb := add_bump_gt (isInt64_i64 nr) hcur0 (by omega) h
    have hcl := value_clamp_gt hb (show cur.toNat < max.toNat by omega)
      (show mincap.toNat ≤ max.toNat by omega)
    rw [i64_of_lt (by omega)]
    omega
  apply fin
  rcases hvm with ⟨hraw, hv0⟩ | ⟨hpct, hv1, hv2, hno⟩
  · have hcve := hcvraw hraw
    simp only [hraw, value_to_raw]
    have hw64 : i64 (u64 (wrap64 (conf.value + (cv : Int)))) = wrap64 (conf.value + (cv : Int)) :=
      wrap64_of_isInt64 (isInt64_i64 _)
    rw [hw64]
    unfold wrap64 i64 u64
    split_ifs <;> omega
  · have hcvle := hcvpct hpct
    have hu : u64 cur = cur.toNat := u64_of_nonneg (by omega) (by omega)
    have hex := @value_from_raw_percent_exact w.fl cur.toNat max.toNat
      (by omega) (by omega) (by omega)
    rw [hpct, hu, hM] at hcv
    rw [hex] at hcv
    simp only [Option.some.injEq] at hcv
    have hwt : wrap64 (conf.value + (cv : Int)) = conf.value + (cv : Int) :=
      wrap64_of_isInt64 (by unfold isInt64; omega)
    rw [hwt]
    have hut : u64 (conf.value + (cv : Int)) = conf.value.toNat + cv := by
      rw [u64_of_nonneg (by omega) (by omega)]; omega
    simp only [hpct, value_to_raw, VALUE_PCT_MAX, hut]
    have hprod : (conf.value.toNat + cv) * max.toNat < 18446744073709551616 := by
      have : (conf.value.toNat + cv) * max.toNat ≤ 20000 * max.toNat :=
        Nat.mul_le_mul_right _ (by omega)
      omega
    rw [Nat.mod_eq_of_lt hprod]
    have hge : cur.toNat ≤ (conf.value.toNat + cv) * max.toNat / 10000 := by
      rw [Nat.le_div_iff_mul_le (by omega)]
      have h1 := Nat.div_add_mod (cur.toNat * 10000) max.toNat
      have h2 := Nat.mod_lt (cur.toNat * 10000) (show 0 < max.toNat by omega)
      have : (cv + 1) * max.toNat ≤ (conf.value.toNat + cv) * max.toNat :=
        Nat.mul_le_mul_right _ (by omega)
      rw [Nat.add_mul, Nat.mul_comm cv] at this
      rw [hcv] at h1
      omega
    have hlt : (conf.value.toNat + cv) * max.toNat / 10000 < 9223372036854775808 := by omega
    left
    rw [i64_of_lt hlt]
    omega

/-- The other pairings outside the valid set are rejected: Set, Add or Sub on
the maximum-brightness or the save-restore field never returns true and never
writes. -/
theorem exec_op_rejects_other_fields (conf : light_conf) (w : World) (r : Res)
    (hfield : conf.field = LIGHT_MAX_BRIGHTNESS ∨ conf.field = LIGHT_SAVERESTORE)
    (hop : conf.op_mode = LIGHT_SET ∨ conf.op_mode = LIGHT_ADD ∨ conf.op_mode = LIGHT_SUB)
    (hmode : conf.ctrl_mode ≠ LIGHT_CTRL_ALL)
    (hr : exec_op conf w = some r) :
    r.ret = false ∧ r.world.writes = w.writes := by
  rw [exec_op_eq_dispatch w (by rcases hop with h | h | h <;> simp [h]) hmode] at hr
  unfold exec_dispatch at hr
  have key : ∀ (max mincap : Int) (p : Bool × World),
      exec_set conf max mincap w = some p → p = (false, w) := by
    intro max mincap p hp
    rcases exec_set_cases hp with h | ⟨c, cv, t, -, -, -, ht, -⟩
    · exact h
    · rcases hfield with hf | hf <;> simp [exec_set_target, hf] at ht
  split at hr
  · simp only [Option.some.injEq] at hr; subst hr; exact ⟨rfl, rfl⟩
  · rename_i curr max mincap hinit
    rcases hop with h | h | h <;>
    · rw [h] at hr
      simp only at hr
      split at hr
      · simp at hr
      · rename_i ret w1 hs
        simp only [Option.some.injEq] at hr
        subst hr
        have := key _ _ _ hs
        simp only [Prod.mk.injEq] at this
        obtain ⟨rfl, rfl⟩ := this
        exact ⟨rfl, rfl⟩

theorem read_store_ne (fs : CtrlFiles) {f g : LIGHT_FIELD} (v : Int) (h : f ≠ g) :
    (fs.store g v).read f = fs.read f := by
  cases f <;> cases g <;> first | exact absurd rfl h | rfl

theorem read_store_same (fs : CtrlFiles) (f : LIGHT_FIELD) (v : Int) :
    (fs.store f v).read f = v := by
  cases f <;> rfl

/-- A committed write does not change what is read from the other fields. -/
theorem light_fetch_commit_ne (conf : light_conf) (w : World) (c : String) {f g : LIGHT_FIELD}
    (a b : Int) (h : f ≠ g) :
    light_fetch conf f (w.commit c g a b) = light_fetch conf f w := by
  unfold light_fetch light_path_new
  cases conf.ctrl with
  | none => rfl
  | some c1 =>
    simp only [World.commit, file_read]
    split_ifs
    · by_cases hcc : c1 = c
      · subst hcc
        simp [read_store_ne _ _ h]
      · simp [Function.update_noteq hcc]
    · rfl

theorem exec_init_commit_saverestore (conf : light_conf) (w : World) (c : String) (a b : Int) :
    exec_init conf (w.commit c LIGHT_SAVERESTORE a b) = exec_init conf w := by
  unfold exec_init exec_get_min
  rw [light_fetch_commit_ne conf w c a b (show LIGHT_MAX_BRIGHTNESS ≠ LIGHT_SAVERESTORE by decide),
    light_fetch_commit_ne conf w c a b (show LIGHT_BRIGHTNESS ≠ LIGHT_SAVERESTORE by decide),
    light_fetch_commit_ne conf w c a b (show LIGHT_MIN_CAP ≠ LIGHT_SAVERESTORE by decide)]

/-- C3, counterexample: with `max = 100`, `mincap = 50` and a live brightness of
10, Save stores 10 and Restore then commits 50: the live brightness ends at
50, not at the value it had before Save. -/
theorem save_restore_below_mincap :
    ((exec_op (demo_conf "a" LIGHT_SAVE LIGHT_PERCENT LIGHT_BRIGHTNESS 0)
        (demo_world ["a"] 10 100 50 (-2))).bind
      (fun r1 => exec_op (demo_conf "a" LIGHT_RESTORE LIGHT_PERCENT LIGHT_BRIGHTNESS 0) r1.world)).map
      (fun r2 => (r2.ret, r2.world.writes, (r2.world.files "a").brightness))
      = some (true, [⟨"a", LIGHT_SAVERESTORE, 10, 10⟩, ⟨"a", LIGHT_BRIGHTNESS, 10, 50⟩], 50) ∧
    ((demo_world ["a"] 10 100 50 (-2)).files "a").brightness = 10 := by
  decide

theorem exec_init_congr {c1 c2 : light_conf} (w : World) (hc : c1.ctrl = c2.ctrl)
    (hm : c1.cached_max = c2.cached_max) (h1 : c1.field = LIGHT_BRIGHTNESS)
    (h2 : c2.field = LIGHT_BRIGHTNESS) : exec_init c1 w = exec_init c2 w := by
  unfold exec_init exec_get_min light_fetch light_path_new
  simp [hc, hm, h1, h2]

/-- C3, amended: when `exec_init` succeeds with `(curr, max, mincap)` and the
opens (with a positive descriptor for the save-restore cache) and writes
succeed, Save stores `curr` and a following Restore commits `curr` clamped to
`[mincap, max]` to the live brightness; when `mincap ≤ curr ≤ max` that is
`curr` itself and the live brightness after Restore is the one before Save. -/
theorem save_restore_round_trip (cs cr : light_conf) (w : World) (c : String)
    (curr max mincap : Int)
    (hops : cs.op_mode = LIGHT_SAVE) (hopr : cr.op_mode = LIGHT_RESTORE)
    (hfs : cs.field = LIGHT_BRIGHTNESS) (hfr : cr.field = LIGHT_BRIGHTNESS)
    (hms : cs.ctrl_mode ≠ LIGHT_CTRL_ALL) (hmr : cr.ctrl_mode ≠ LIGHT_CTRL_ALL)
    (hcs : cs.ctrl = some c) (hcr : cr.ctrl = some c) (hcm : cr.cached_max = cs.cached_max)
    (hp : w.path_ok c = true)
    (hinit : exec_init cs w = some (curr, max, mincap))
    (hcurrI : isInt64 curr) (hmaxI : isInt64 max)
    (hfdS : 0 < (w.files c).fd LIGHT_SAVERESTORE)
    (hwS : (w.files c).write_ok LIGHT_SAVERESTORE = true)
    (hfdB : 0 ≤ (w.files c).fd LIGHT_BRIGHTNESS)
    (hwB : (w.files c).write_ok LIGHT_BRIGHTNESS = true) :
    ∃ r1 r2,
      exec_op cs w = some r1 ∧ r1.ret = true ∧
      r1.world.writes = w.writes ++ [⟨c, LIGHT_SAVERESTORE, curr, curr⟩] ∧
      exec_op cr r1.world = some r2 ∧ r2.ret = true ∧
      r2.world.writes = r1.world.writes ++
        [⟨c, LIGHT_BRIGHTNESS, curr, i64 (value_clamp (u64 curr) (u64 mincap) (u64 max))⟩] ∧
      (r2.world.files c).brightness = i64 (value_clamp (u64 curr) (u64 mincap) (u64 max)) ∧
      (mincap ≤ curr → curr ≤ max →
        i64 (value_clamp (u64 curr) (u64 mincap) (u64 max)) = curr ∧
        (r2.world.files c).brightness = (w.files c).brightness) := by
  obtain ⟨hcurr, hcurr0, hmin, hmin0, hminmax⟩ := exec_init_full hinit (Or.inl hfs)
  have hcb : curr = (w.files c).brightness := by
    rw [hcurr]; exact light_fetch_some cs w _ hcs hp
  -- Save
  have hsave : exec_op cs w = some ⟨true, cs, w.commit c LIGHT_SAVERESTORE curr curr⟩ := by
    rw [exec_op_eq_dispatch w (by simp [hops]) hms]
    unfold exec_dispatch
    rw [hinit]
    simp [hops, exec_write, light_path_new, hcs, hp, file_open, hfdS, file_write, hwS]
  -- Restore
  have hinit2 : exec_init cr (w.commit c LIGHT_SAVERESTORE curr curr)
      = some (curr, max, mincap) := by
    rw [exec_init_commit_saverestore, ← hinit]
    exact exec_init_congr w (by rw [hcs, hcr]) hcm hfr hfs
  have hfetch : light_fetch cr LIGHT_SAVERESTORE (w.commit c LIGHT_SAVERESTORE curr curr)
      = curr := by
    rw [light_fetch_some cr (w.commit c LIGHT_SAVERESTORE curr curr) _ hcr hp]
    simp [World.commit, read_store_same]
  have hfiles : (w.commit c LIGHT_SAVERESTORE curr curr).files c
      = (w.files c).store LIGHT_SAVERESTORE curr := by
    simp [World.commit]
  have hraw : exec_set_raw (w.commit c LIGHT_SAVERESTORE curr curr).fl LIGHT_RAW LIGHT_SET
      curr curr max mincap = i64 (value_clamp (u64 curr) (u64 mincap) (u64 max)) := by
    have : i64 (u64 curr) = curr := wrap64_of_isInt64 hcurrI
    simp [exec_set_raw, value_to_raw, this]
  have hrestore : exec_op cr (w.commit c LIGHT_SAVERESTORE curr curr)
      = some ⟨true, { cr with value := curr, val_mode := LIGHT_RAW, op_mode := LIGHT_SET },
          (w.commit c LIGHT_SAVERESTORE curr curr).commit c LIGHT_BRIGHTNESS curr
            (i64 (value_clamp (u64 curr) (u64 mincap) (u64 max)))⟩ := by
    rw [exec_op_eq_dispatch _ (by simp [hopr]) hmr]
    unfold exec_dispatch
    rw [hinit2]
    simp only [hopr, exec_restore, hfetch]
    rw [if_pos (by omega)]
    have hcur2 : exec_set_curr
        { cr with value := curr, val_mode := LIGHT_RAW, op_mode := LIGHT_SET }
        (w.commit c LIGHT_SAVERESTORE curr curr) = curr := by
      rw [exec_set_curr_brightness
        { cr with value := curr, val_mode := LIGHT_RAW, op_mode := LIGHT_SET }
        (w.commit c LIGHT_SAVERESTORE curr curr) hfr hcr hp,
        hfiles, hcb]
      rfl
    have := @exec_set_commits
      { cr with value := curr, val_mode := LIGHT_RAW, op_mode := LIGHT_SET }
      max mincap (w.commit c LIGHT_SAVERESTORE curr curr) c (u64 curr) curr hcr hp
      (by rw [hfiles]; simpa [hfr] using hfdB) (by rw [hfiles]; simpa [hfr] using hwB)
      (by rw [hcur2]; exact hcurr0) (by rw [hcur2]; rfl) (by simp [exec_set_target, hfr])
    rw [this, hcur2]
    simp only [hfr]
    rw [hraw]
  have hbr : (((w.commit c LIGHT_SAVERESTORE curr curr).commit c LIGHT_BRIGHTNESS curr
      (i64 (value_clamp (u64 curr) (u64 mincap) (u64 max)))).files c).brightness
      = i64 (value_clamp (u64 curr) (u64 mincap) (u64 max)) := by
    simp [World.commit, CtrlFiles.store]
  refine ⟨_, _, hsave, rfl, ?_, hrestore, rfl, ?_, hbr, ?_⟩
  · simp [World.commit]
  · simp [World.commit]
  · intro h1 h2
    unfold isInt64 at hcurrI hmaxI
    have hv : i64 (value_clamp (u64 curr) (u64 mincap) (u64 max)) = curr := by
      rw [u64_of_nonneg hcurr0 (by omega), u64_of_nonneg hmin0 (by omega),
        u64_of_nonneg (by omega) (by omega),
        value_clamp_of_mem (by omega) (by omega), i64_of_lt (by omega)]
      omega
    exact ⟨hv, by rw [hbr, hv, hcb]⟩

/-- C3, witness: `max = 100`, `mincap = 5`, live brightness 40. -/
theorem save_restore_round_trip_witness :
    ∃ r1 r2,
      exec_op (demo_conf "a" LIGHT_SAVE LIGHT_PERCENT LIGHT_BRIGHTNESS 0)
        (demo_world ["a"] 40 100 5 (-2)) = some r1 ∧ r1.ret = true ∧
      r1.world.writes = (demo_world ["a"] 40 100 5 (-2)).writes ++
        [⟨"a", LIGHT_SAVERESTORE, 40, 40⟩] ∧
      exec_op (demo_conf "a" LIGHT_RESTORE LIGHT_PERCENT LIGHT_BRIGHTNESS 0) r1.world
        = some r2 ∧ r2.ret = true ∧
      r2.world.writes = r1.world.writes ++
        [⟨"a", LIGHT_BRIGHTNESS, 40, i64 (value_clamp (u64 40) (u64 5) (u64 100))⟩] ∧
      (r2.world.files "a").brightness = i64 (value_clamp (u64 40) (u64 5) (u64 100)) ∧
      i64 (value_clamp (u64 40) (u64 5) (u64 100)) = 40 ∧
      (r2.world.files "a").brightness = ((demo_world ["a"] 40 100 5 (-2)).files "a").brightness :=
  (save_restore_round_trip (demo_conf "a" LIGHT_SAVE LIGHT_PERCENT LIGHT_BRIGHTNESS 0)
    (demo_conf "a" LIGHT_RESTORE LIGHT_PERCENT LIGHT_BRIGHTNESS 0)
    (demo_world ["a"] 40 100 5 (-2)) "a" 40 100 5 rfl rfl rfl rfl (by decide) (by decide)
    rfl rfl rfl rfl rfl (by decide) (by decide) (by decide) rfl (by decide) rfl).imp
    (fun _ h => h.imp (fun _ h2 =>
      ⟨h2.1, h2.2.1, h2.2.2.1, h2.2.2.2.1, h2.2.2.2.2.1, h2.2.2.2.2.2.1, h2.2.2.2.2.2.2.1,
        h2.2.2.2.2.2.2.2 (by decide) (by decide)⟩))

theorem print_nil (w : World) : w.print [] = w := by
  cases w; simp [World.print]

/-- C6, counterexample: a controller that reports a maximum of 0 makes Get on
the maximum-brightness field fail without printing; and for `max = 2^62` the
product `max * 10000` wraps to 0, so that 0.00 is printed. -/
theorem get_max_percent_zero_max :
    (exec_op (demo_conf "a" LIGHT_GET LIGHT_PERCENT LIGHT_MAX_BRIGHTNESS 0)
        (demo_world ["a"] 0 0 0 (-2))).map (fun r => (r.ret, r.world.out)) = some (false, []) ∧
    (exec_op (demo_conf "a" LIGHT_GET LIGHT_PERCENT LIGHT_MAX_BRIGHTNESS 0)
        (demo_world ["a"] 0 4611686018427387904 0 (-2))).map (fun r => (r.ret, r.world.out))
      = some (true, [OutLine.pct_value 0]) := by
  decide

/-- C6, amended: when `exec_init` yields a maximum with `1 ≤ max` and
`max * 10000 < 2^64`, Get on the maximum-brightness field in percent mode
succeeds and prints 10000 hundredths (100.00); when the maximum is 0 it fails
and prints nothing. -/
theorem get_max_percent (conf : light_conf) (w : World) (curr max mincap : Int)
    (hop : conf.op_mode = LIGHT_GET) (hfield : conf.field = LIGHT_MAX_BRIGHTNESS)
    (hvm : conf.val_mode = LIGHT_PERCENT) (hmode : conf.ctrl_mode ≠ LIGHT_CTRL_ALL)
    (hinit : exec_init conf w = some (curr, max, mincap)) :
    (1 ≤ max → max * 10000 < 18446744073709551616 →
      value_from_raw w.fl LIGHT_PERCENT (u64 max) (u64 max) = some 10000 ∧
      exec_op conf w = some ⟨true, conf, w.print [OutLine.pct_value 10000]⟩) ∧
    (max = 0 → exec_op conf w = some ⟨false, conf, w⟩) := by
  rw [exec_op_eq_dispatch w (by simp [hop]) hmode]
  unfold exec_dispatch
  rw [hinit]
  simp only [hop, hfield, hvm]
  constructor
  · intro h1 h2
    have hM : u64 max = max.toNat := u64_of_nonneg (by omega) (by omega)
    have hv : value_from_raw w.fl LIGHT_PERCENT (u64 max) (u64 max) = some 10000 := by
      rw [hM, value_from_raw_percent_exact w.fl (by omega) (Nat.le_refl _) (by omega)]
      rw [Nat.mul_comm, Nat.mul_div_cancel _ (by omega)]
    refine ⟨hv, ?_⟩
    have hne : max ≠ 0 := by omega
    simp [exec_get, hne, hv, i64]
  · intro h0
    simp [exec_get, h0, print_nil]

/-- C6, witness: `max = 255` prints 100.00; `max = 0` fails. -/
theorem get_max_percent_witness :
    (value_from_raw no_float LIGHT_PERCENT (u64 255) (u64 255) = some 10000 ∧
      exec_op (demo_conf "a" LIGHT_GET LIGHT_PERCENT LIGHT_MAX_BRIGHTNESS 0)
          (demo_world ["a"] 100 255 0 (-2))
        = some ⟨true, demo_conf "a" LIGHT_GET LIGHT_PERCENT LIGHT_MAX_BRIGHTNESS 0,
            (demo_world ["a"] 100 255 0 (-2)).print [OutLine.pct_value 10000]⟩) ∧
    exec_op (demo_conf "a" LIGHT_GET LIGHT_PERCENT LIGHT_MAX_BRIGHTNESS 0)
        (demo_world ["a"] 100 0 0 (-2))
      = some ⟨false, demo_conf "a" LIGHT_GET LIGHT_PERCENT LIGHT_MAX_BRIGHTNESS 0,
          demo_world ["a"] 100 0 0 (-2)⟩ :=
  ⟨(get_max_percent (demo_conf "a" LIGHT_GET LIGHT_PERCENT LIGHT_MAX_BRIGHTNESS 0)
      (demo_world ["a"] 100 255 0 (-2)) 0 255 0 rfl rfl rfl (by decide) rfl).1
      (by decide) (by decide),
    (get_max_percent (demo_conf "a" LIGHT_GET LIGHT_PERCENT LIGHT_MAX_BRIGHTNESS 0)
      (demo_world ["a"] 100 0 0 (-2)) 0 0 0 rfl rfl rfl (by decide) rfl).2 rfl⟩

theorem value_to_raw_lt (fl : FloatOps) (mode : LIGHT_VAL_MODE) (x max : Int) :
    value_to_raw fl mode (u64 x) (u64 max) < 18446744073709551616 := by
  cases mode
  · exact u64_lt x
  · simp only [value_to_raw, VALUE_PCT_MAX]; omega
  · simp only [value_to_raw]; omega

theorem u64_i64 {n : Nat} (h : n < 18446744073709551616) : u64 (i64 n) = n := by
  unfold u64 i64; split_ifs <;> omega

/-- C9: Set on the mincap field (with `max ≥ 1`) either fails without writing
or commits to the mincap cache the converted request clamped to `[0, max]`, a
value `v` with `0 ≤ v ≤ max` that does not depend on the stored mincap, and it
does commit when the open and the write succeed; and `exec_init` fails
whenever the stored mincap exceeds the maximum, unless the operation is Set on
mincap or the field is the maximum brightness. -/
theorem mincap_le_max_maintained (conf : light_conf) (w : World) (c : String)
    (hc : conf.ctrl = some c) :
    (∀ curr max mincap : Int, conf.op_mode = LIGHT_SET → conf.field = LIGHT_MIN_CAP →
      conf.ctrl_mode ≠ LIGHT_CTRL_ALL → exec_init conf w = some (curr, max, mincap) →
      1 ≤ max → isInt64 max →
      ∃ v, v = i64 (value_clamp (value_to_raw w.fl conf.val_mode (u64 conf.value) (u64 max))
              0 (u64 max)) ∧
        0 ≤ v ∧ v ≤ max ∧
        (exec_op conf w = some ⟨false, conf, w⟩ ∨
          exec_op conf w
            = some ⟨true, conf, w.commit c LIGHT_MIN_CAP (exec_get_min conf w) v⟩) ∧
        (w.path_ok c = true → 0 ≤ (w.files c).fd LIGHT_MIN_CAP →
          (w.files c).write_ok LIGHT_MIN_CAP = true →
          exec_op conf w
            = some ⟨true, conf, w.commit c LIGHT_MIN_CAP (exec_get_min conf w) v⟩)) ∧
    (¬ (conf.field = LIGHT_MIN_CAP ∧ conf.op_mode = LIGHT_SET) →
      conf.field ≠ LIGHT_MAX_BRIGHTNESS →
      light_fetch conf LIGHT_MIN_CAP w >
        (if conf.cached_max ≠ 0 then conf.cached_max
         else light_fetch conf LIGHT_MAX_BRIGHTNESS w) →
      exec_init conf w = none) := by
  constructor
  · intro curr max mincap hop hfield hmode hinit hmax1 hmaxI
    have hmin : mincap = 0 := by
      unfold exec_init at hinit
      simp only [hop, hfield, and_self, true_or, if_true] at hinit
      split_ifs at hinit <;>
      · simp only [Option.some.injEq, Prod.mk.injEq] at hinit
        exact hinit.2.2.symm
    subst hmin
    unfold isInt64 at hmaxI
    have hM : u64 max = max.toNat := u64_of_nonneg (by omega) (by omega)
    have hcl := value_clamp_le (value_to_raw w.fl conf.val_mode (u64 conf.value) (u64 max))
      (Nat.zero_le (u64 max))
    have hv : i64 (value_clamp (value_to_raw w.fl conf.val_mode (u64 conf.value) (u64 max))
        0 (u64 max)) = ((value_clamp (value_to_raw w.fl conf.val_mode (u64 conf.value) (u64 max))
        0 (u64 max) : Nat) : Int) := i64_of_lt (by omega)
    have hraw : exec_set_raw w.fl conf.val_mode conf.op_mode conf.value (exec_get_min conf w)
        max 0 = i64 (value_clamp (value_to_raw w.fl conf.val_mode (u64 conf.value) (u64 max))
          0 (u64 max)) := by
      simp only [exec_set_raw, hop]
      rw [if_neg (by simp), u64_i64 (value_to_raw_lt _ _ _ _)]
      rfl
    have hcurr : exec_set_curr conf w = exec_get_min conf w := by
      unfold exec_set_curr; rw [if_pos hfield]
    have hcv : ∃ cv, value_from_raw w.fl conf.val_mode (u64 (exec_get_min conf w)) (u64 max)
        = some cv := by
      cases hvm : conf.val_mode
      · exact ⟨_, rfl⟩
      · exact ⟨_, value_from_raw_percent w.fl (by omega)⟩
      · exact ⟨_, rfl⟩
    obtain ⟨cv, hcv⟩ := hcv
    have htgt : exec_set_target conf.field conf.op_mode conf.value (i64 cv) = some conf.value := by
      simp [exec_set_target, hfield]
    have hdisp : exec_op conf w = (exec_set conf max 0 w).bind
        (fun p => some ⟨p.1, conf, p.2⟩) := by
      rw [exec_op_eq_dispatch w (by simp [hop]) hmode]
      unfold exec_dispatch
      rw [hinit]
      simp only [hop]
      cases exec_set conf max 0 w <;> rfl
    refine ⟨_, rfl, ?_, ?_, ?_, ?_⟩
    · rw [hv]; omega
    · rw [hv]; omega
    · rw [hdisp]
      by_cases hok : w.path_ok c = true ∧ 0 ≤ (w.files c).fd LIGHT_MIN_CAP ∧
          (w.files c).write_ok LIGHT_MIN_CAP = true
      · right
        have := exec_set_commits conf max 0 w hc hok.1 (by rw [hfield]; exact hok.2.1)
          (by rw [hfield]; exact hok.2.2) (by rw [hcurr]; exact exec_get_min_nonneg conf w)
          (by rw [hcurr]; exact hcv) htgt
        rw [this, hcurr, hfield, hraw]
        rfl
      · left
        have : exec_set conf max 0 w = some (false, w) := by
          unfold exec_set
          simp only [light_path_new, hc]
          by_cases hp : w.path_ok c = true
          · simp only [hp, if_true, file_open, hfield]
            by_cases hfd : (w.files c).fd LIGHT_MIN_CAP < 0
            · simp [hfd]
            · have hnn := exec_get_min_nonneg conf w
              have hw : (w.files c).write_ok LIGHT_MIN_CAP ≠ true := fun h =>
                hok ⟨hp, by omega, h⟩
              rw [hfield] at htgt
              simp [hfd, hcurr, hcv, htgt, file_write, hw, not_lt.mpr hnn]
          · simp [hp]
        rw [this]
        rfl
    · intro hp hfd hw
      rw [hdisp]
      have := exec_set_commits conf max 0 w hc hp (by rw [hfield]; exact hfd)
        (by rw [hfield]; exact hw) (by rw [hcurr]; exact exec_get_min_nonneg conf w)
        (by rw [hcurr]; exact hcv) htgt
      rw [this, hcurr, hfield, hraw]
      rfl
  · intro hns hnm hgt
    unfold exec_init exec_get_min
    simp only
    have hsp : ¬ ((conf.field = LIGHT_MIN_CAP ∧ conf.op_mode = LIGHT_SET) ∨
        conf.field = LIGHT_MAX_BRIGHTNESS) := by
      rintro (h | h)
      · exact hns h
      · exact hnm h
    rw [if_neg hsp]
    split_ifs at hgt ⊢ <;> first | rfl | omega

/-- C9, witness: Set mincap to the raw value 500 with `max = 255` commits 255;
a stored mincap of 300 with `max = 255` makes `exec_init` fail for Get. -/
theorem mincap_le_max_maintained_witness :
    (∃ v, v = i64 (value_clamp (value_to_raw no_float LIGHT_RAW (u64 500) (u64 255)) 0 (u64 255)) ∧
      0 ≤ v ∧ v ≤ 255 ∧
      exec_op (demo_conf "a" LIGHT_SET LIGHT_RAW LIGHT_MIN_CAP 500)
          (demo_world ["a"] 100 255 10 (-2))
        = some ⟨true, demo_conf "a" LIGHT_SET LIGHT_RAW LIGHT_MIN_CAP 500,
            (demo_world ["a"] 100 255 10 (-2)).commit "a" LIGHT_MIN_CAP 10 v⟩) ∧
    exec_init (demo_conf "a" LIGHT_GET LIGHT_RAW LIGHT_BRIGHTNESS 0)
      (demo_world ["a"] 100 255 300 (-2)) = none :=
  ⟨(((mincap_le_max_maintained (demo_conf "a" LIGHT_SET LIGHT_RAW LIGHT_MIN_CAP 500)
        (demo_world ["a"] 100 255 10 (-2)) "a" rfl).1 0 255 0 rfl rfl (by decide) rfl
        (by decide) (by decide)).imp
      (fun _ h => ⟨h.1, h.2.1, h.2.2.1, h.2.2.2.2 rfl (by decide) rfl⟩)),
    (mincap_le_max_maintained (demo_conf "a" LIGHT_GET LIGHT_RAW LIGHT_BRIGHTNESS 0)
      (demo_world ["a"] 100 255 300 (-2)) "a" rfl).2 (by decide) (by decide) (by decide)⟩

theorem exec_dispatch_get (conf : light_conf) (w : World) (hop : conf.op_mode = LIGHT_GET) :
    exec_dispatch conf w = (get_outcome conf w).map (fun p => ⟨p.1, conf, w.print p.2⟩) := by
  unfold exec_dispatch get_outcome
  cases hi : exec_init conf w with
  | none => simp [print_nil]
  | some t =>
    obtain ⟨curr, max, mincap⟩ := t
    simp only [hop]
    cases exec_get w.fl conf.field conf.val_mode curr max mincap with
    | none => rfl
    | some p => rfl

theorem exec_op_ctrl_get (conf : light_conf) (w : World) (hop : conf.op_mode = LIGHT_GET) :
    exec_op_ctrl conf w = (get_outcome conf w).map (fun p => ⟨p.1, conf, w.print p.2⟩) := by
  unfold exec_op_ctrl
  have : (info_print conf.op_mode false w).1 = false := by rw [hop]; rfl
  simp only [this, Bool.false_eq_true, if_false]
  exact exec_dispatch_get conf w hop

theorem get_outcome_print (conf : light_conf) (w : World) (ls : List OutLine) :
    get_outcome conf (w.print ls) = get_outcome conf w := rfl

theorem exec_get_isSome (fl : FloatOps) (field : LIGHT_FIELD) (mode : LIGHT_VAL_MODE)
    (curr mincap : Int) {max : Int} (hmax : isInt64 max) :
    ∃ p, exec_get fl field mode curr max mincap = some p := by
  unfold exec_get
  by_cases h0 : max = 0
  · exact ⟨_, by rw [if_pos h0]⟩
  · rw [if_neg h0]
    have hM : u64 max ≠ 0 := by unfold isInt64 at hmax; unfold u64; omega
    have hv : ∀ raw : Int, ∃ v, value_from_raw fl mode (u64 raw) (u64 max) = some v := by
      intro raw
      cases mode
      · exact ⟨_, rfl⟩
      · exact ⟨_, value_from_raw_percent fl (by omega)⟩
      · exact ⟨_, rfl⟩
    cases field
    · obtain ⟨v, hv⟩ := hv curr
      simp only [hv]; split_ifs <;> exact ⟨_, rfl⟩
    · obtain ⟨v, hv⟩ := hv max
      simp only [hv]; split_ifs <;> exact ⟨_, rfl⟩
    · obtain ⟨v, hv⟩ := hv mincap
      simp only [hv]; split_ifs <;> exact ⟨_, rfl⟩
    · exact ⟨_, rfl⟩
theorem print_print (w : World) (a b : List OutLine) : (w.print a).print b = w.print (a ++ b) := by
  simp [World.print, List.append_assoc]

theorem get_outcome_isSome (conf : light_conf) (w : World) (hcm : isInt64 conf.cached_max)
    (hmax : ∀ c, conf.ctrl = some c → isInt64 (w.files c).max_brightness) :
    ∃ p, get_outcome conf w = some p := by
  unfold get_outcome
  cases hi : exec_init conf w with
  | none => exact ⟨_, rfl⟩
  | some t =>
    obtain ⟨curr, max, mincap⟩ := t
    have hM : isInt64 max := by
      have hf : isInt64 (light_fetch conf LIGHT_MAX_BRIGHTNESS w) := by
        unfold light_fetch light_path_new
        cases hc : conf.ctrl with
        | none => exact (by decide : isInt64 (-12))
        | some c =>
          simp only
          split_ifs
          · exact hmax c hc
          · exact (by decide : isInt64 (-12))
      unfold exec_init at hi
      simp only at hi
      split_ifs at hi <;>
      · simp only [Option.some.injEq, Prod.mk.injEq] at hi
        obtain ⟨-, rfl, -⟩ := hi
        first | exact hcm | exact hf
    exact exec_get_isSome _ _ _ _ _ hM

/-- The loop of `exec_all` for a Get: every controller is taken in turn, its
name and its own Get output are printed, and the flag stays true only while
every Get succeeds. -/
theorem exec_all_loop_get (cs : List String) :
    ∀ (conf : light_conf) (w : World) (acc : Bool), conf.op_mode = LIGHT_GET →
      isInt64 conf.cached_max → (∀ c ∈ cs, isInt64 (w.files c).max_brightness) →
      ∃ r, exec_all_loop conf w acc cs = some r ∧
        r.ret = (acc && cs.all (fun c =>
          ((get_outcome { conf with ctrl := some c } w).map Prod.fst).getD false)) ∧
        r.world = w.print (cs.flatMap (fun c => OutLine.ctrl_tab c ::
          ((get_outcome { conf with ctrl := some c } w).map Prod.snd).getD [])) := by
  induction cs with
  | nil =>
    intro conf w acc _ _ _
    exact ⟨_, rfl, by simp, by simp [print_nil]⟩
  | cons c cs ih =>
    intro conf w acc hop hcm hmax
    obtain ⟨p, hp⟩ := get_outcome_isSome { conf with ctrl := some c } w hcm
      (fun c1 h1 => by
        simp only [Option.some.injEq] at h1
        exact hmax c1 (by simp [h1]))
    obtain ⟨r, hr, hret, hworld⟩ := ih { conf with ctrl := some c }
      ((w.print [OutLine.ctrl_tab c]).print p.2) (if p.1 then acc else false) hop hcm
      (fun c1 h1 => hmax c1 (List.mem_cons_of_mem _ h1))
    refine ⟨r, ?_, ?_, ?_⟩
    · rw [← hr]
      simp only [exec_all_loop]
      rw [if_pos (show ({ conf with ctrl := some c } : light_conf).op_mode = LIGHT_GET from hop),
        exec_op_ctrl_get { conf with ctrl := some c } _ hop, get_outcome_print, hp]
      rfl
    · rw [hret]
      simp only [List.all_cons, hp, Option.map_some', Option.getD_some]
      cases p.1 <;> cases acc <;> rfl
    · rw [hworld, print_print, print_print]
      simp only [List.flatMap_cons, hp, Option.map_some', Option.getD_some]
      rfl
theorem exec_op_ctrl_conf_get (conf : light_conf) (w : World) (c : String)
    (hop : conf.op_mode = LIGHT_GET) :
    exec_op (ctrl_conf conf c) w = (get_outcome (ctrl_conf conf c) w).map
      (fun p => ⟨p.1, ctrl_conf conf c, w.print p.2⟩) := by
  rw [exec_op_eq_dispatch w (by simp [ctrl_conf, hop]) (by simp [ctrl_conf])]
  exact exec_dispatch_get _ w hop

theorem ctrl_lines_get (conf : light_conf) (w : World) (c : String)
    (hop : conf.op_mode = LIGHT_GET) :
    ctrl_lines conf w c = ((get_outcome (ctrl_conf conf c) w).map Prod.snd).getD [] := by
  unfold ctrl_lines
  rw [exec_op_ctrl_conf_get conf w c hop]
  cases get_outcome (ctrl_conf conf c) w with
  | none => rfl
  | some p => simp [World.print]

/-- A Get over all controllers in detail: `exec_all` runs over the controllers
the iterator yields in order: for each one it prints the name and then exactly what `exec_op` prints
for that controller alone, whether or not earlier controllers failed, it
writes nothing, and it returns true exactly when `exec_op` returns true for
every controller (hence true for the empty list). -/
theorem exec_all_get (conf : light_conf) (w : World) (cs : List String)
    (hop : conf.op_mode = LIGHT_GET) (hdir : w.dir = some cs)
    (hcm : isInt64 conf.cached_max)
    (hmax : ∀ c ∈ cs, isInt64 (w.files c).max_brightness) :
    ∃ r, exec_all conf w = some r ∧
      (∀ c ∈ cs, ∃ r1, exec_op (ctrl_conf conf c) w = some r1) ∧
      (r.ret = true ↔ ∀ c ∈ cs, ∃ r1, exec_op (ctrl_conf conf c) w = some r1 ∧ r1.ret = true) ∧
      r.world.out = w.out ++ cs.flatMap (fun c => OutLine.ctrl_tab c :: ctrl_lines conf w c) ∧
      r.world.writes = w.writes := by
  obtain ⟨r, hr, hret, hworld⟩ := exec_all_loop_get cs { conf with ctrl_mode := LIGHT_CTRL_SPECIFY }
    w true hop hcm hmax
  have hsome : ∀ c ∈ cs, ∃ p, get_outcome (ctrl_conf conf c) w = some p := fun c hc =>
    get_outcome_isSome (ctrl_conf conf c) w hcm (fun c1 h1 => by
      simp only [ctrl_conf, Option.some.injEq] at h1
      exact hmax c1 (h1 ▸ hc))
  refine ⟨r, ?_, ?_, ?_, ?_, ?_⟩
  · unfold exec_all; rw [hdir]; exact hr
  · intro c hc
    obtain ⟨p, hp⟩ := hsome c hc
    exact ⟨_, by rw [exec_op_ctrl_conf_get conf w c hop, hp]; rfl⟩
  · rw [hret, Bool.true_and, List.all_eq_true]
    constructor
    · intro h c hc
      obtain ⟨p, hp⟩ := hsome c hc
      have hc1 := h c hc
      refine ⟨_, by rw [exec_op_ctrl_conf_get conf w c hop, hp]; rfl, ?_⟩
      change ((get_outcome (ctrl_conf conf c) w).map Prod.fst).getD false = true at hc1
      rw [hp] at hc1
      exact hc1
    · intro h c hc
      obtain ⟨r1, hr1, hr1t⟩ := h c hc
      obtain ⟨p, hp⟩ := hsome c hc
      rw [exec_op_ctrl_conf_get conf w c hop, hp] at hr1
      simp only [Option.map_some', Option.some.injEq] at hr1
      change ((get_outcome (ctrl_conf conf c) w).map Prod.fst).getD false = true
      rw [hp, ← hr1t, ← hr1]
      rfl
  · rw [hworld]
    have : (fun c => OutLine.ctrl_tab c :: ctrl_lines conf w c)
        = (fun c => OutLine.ctrl_tab c ::
            ((get_outcome (ctrl_conf conf c) w).map Prod.snd).getD []) := by
      funext c; rw [ctrl_lines_get conf w c hop]
    rw [this]
    rfl
  · rw [hworld]; rfl

/-- An instance of `exec_all_get`: of two controllers the first has a zero
maximum, so that its Get fails. -/
theorem exec_all_get_witness :
    ∃ r, exec_all (demo_conf "" LIGHT_GET LIGHT_RAW LIGHT_BRIGHTNESS 0) two_ctrl_world = some r ∧
      (∀ c ∈ ["a", "b"], ∃ r1, exec_op (ctrl_conf (demo_conf "" LIGHT_GET LIGHT_RAW
        LIGHT_BRIGHTNESS 0) c) two_ctrl_world = some r1) ∧
      (r.ret = true ↔ ∀ c ∈ ["a", "b"], ∃ r1, exec_op (ctrl_conf (demo_conf "" LIGHT_GET
        LIGHT_RAW LIGHT_BRIGHTNESS 0) c) two_ctrl_world = some r1 ∧ r1.ret = true) ∧
      r.world.out = two_ctrl_world.out ++
        ["a", "b"].flatMap (fun c => OutLine.ctrl_tab c ::
          ctrl_lines (demo_conf "" LIGHT_GET LIGHT_RAW LIGHT_BRIGHTNESS 0) two_ctrl_world c) ∧
      r.world.writes = two_ctrl_world.writes :=
  exec_all_get (demo_conf "" LIGHT_GET LIGHT_RAW LIGHT_BRIGHTNESS 0) two_ctrl_world ["a", "b"]
    rfl rfl (by decide)
    (fun c hc => by
      simp only [List.mem_cons, List.mem_singleton, List.not_mem_nil, or_false] at hc
      rcases hc with rfl | rfl <;> decide)

/-- The loop goes on after a failure: the first controller fails, the second
one still prints its value, and the result is false. -/
theorem exec_all_continues_after_failure :
    (exec_all (demo_conf "" LIGHT_GET LIGHT_RAW LIGHT_BRIGHTNESS 0) two_ctrl_world).map
      (fun r => (r.ret, r.world.out))
    = some (false, [OutLine.ctrl_tab "a", OutLine.ctrl_tab "b", OutLine.raw_value 100]) := by
  decide

/-- C11: for `min ≤ max`, `value_clamp val min max` is `val` when
`min ≤ val ≤ max`, `min` when `val < min` and `max` when `val > max`; the
result lies in `[min, max]` and clamping it again changes nothing. -/
theorem value_clamp_cases (val min max : Nat) (h : min ≤ max) :
    (min ≤ val → val ≤ max → value_clamp val min max = val) ∧
    (val < min → value_clamp val min max = min) ∧
    (val > max → value_clamp val min max = max) ∧
    min ≤ value_clamp val min max ∧ value_clamp val min max ≤ max ∧
    value_clamp (value_clamp val min max) min max = value_clamp val min max := by
  have hlo := le_value_clamp val h
  have hhi := value_clamp_le val h
  refine ⟨fun h1 h2 => value_clamp_of_mem h1 h2, ?_, ?_, hlo, hhi, value_clamp_of_mem hlo hhi⟩
  · intro h1
    unfold value_clamp
    rw [if_pos h1]
  · intro h1
    unfold value_clamp
    rw [if_neg (by omega), if_pos h1]

/-- C11, witness: 300 clamped to `[10, 255]` is 255, and stays 255. -/
theorem value_clamp_cases_witness :
    value_clamp 300 10 255 = 255 ∧
    10 ≤ value_clamp 300 10 255 ∧ value_clamp 300 10 255 ≤ 255 ∧
    value_clamp (value_clamp 300 10 255) 10 255 = value_clamp 300 10 255 :=
  (fun h => ⟨h.2.2.1 (by decide), h.2.2.2.1, h.2.2.2.2.1, h.2.2.2.2.2⟩)
    (value_clamp_cases 300 10 255 (by decide))

/-- What `exec_restore` leaves in the configuration object, whether or not it
succeeds: the operation Set in raw mode with the value read from the
save-restore cache of the controller it was called for. -/
theorem exec_restore_conf {conf : light_conf} {max mincap : Int} {w : World} {r : Res}
    (h : exec_restore conf max mincap w = some r) :
    r.conf.op_mode = LIGHT_SET ∧ r.conf.val_mode = LIGHT_RAW ∧
    r.conf.value = light_fetch conf LIGHT_SAVERESTORE w ∧
    r.conf.ctrl = conf.ctrl ∧ r.conf.field = conf.field := by
  unfold exec_restore at h
  simp only at h
  split_ifs at h
  · split at h
    · simp at h
    · simp only [Option.some.injEq] at h
      subst h
      exact ⟨rfl, rfl, rfl, rfl, rfl⟩
  · simp only [Option.some.injEq] at h
    subst h
    exact ⟨rfl, rfl, rfl, rfl, rfl⟩

/-- C12, failing input: with two controllers `a` (saved value 40) and `b`
(saved value 200), both with `max = 255` and `mincap = 0`, a Restore over all
controllers commits 40 to `a` and then 40 to `b`, while a Restore on `b` alone
commits 200; and when `a` has no saved value, `b` is driven to 255. -/
theorem exec_all_restore_reuses_first_value :
    (exec_op restore_all_conf two_saved_world).map (fun r => (r.ret, r.world.writes))
      = some (true, [⟨"a", LIGHT_BRIGHTNESS, 10, 40⟩, ⟨"b", LIGHT_BRIGHTNESS, 20, 40⟩]) ∧
    (exec_op (ctrl_conf restore_all_conf "b") two_saved_world).map
        (fun r => (r.ret, r.world.writes))
      = some (true, [⟨"b", LIGHT_BRIGHTNESS, 20, 200⟩]) ∧
    (exec_op restore_all_conf first_unsaved_world).map (fun r => (r.ret, r.world.writes))
      = some (false, [⟨"b", LIGHT_BRIGHTNESS, 20, 255⟩]) := by
  decide

/-- Only Restore modifies the configuration object: after any other operation
`exec_op`, as `exec_all` calls it, leaves the configuration as it was. -/
theorem exec_op_ctrl_conf {conf : light_conf} {w : World} {r : Res}
    (hop : conf.op_mode ≠ LIGHT_RESTORE) (h : exec_op_ctrl conf w = some r) :
    r.conf = conf := by
  unfold exec_op_ctrl at h
  split_ifs at h
  · simp only [Option.some.injEq] at h
    subst h; rfl
  · unfold exec_dispatch at h
    split at h
    · simp only [Option.some.injEq] at h
      subst h; rfl
    · split at h
      · split at h
        · simp at h
        · simp only [Option.some.injEq] at h
          subst h; rfl
      · simp only [Option.some.injEq] at h
        subst h; rfl
      · rename_i hr
        exact absurd hr hop
      all_goals
        first
        | (split at h
           · simp at h
           · simp only [Option.some.injEq] at h
             subst h; rfl)
        | (simp only [Option.some.injEq] at h
           subst h; rfl)

theorem run_each_length (conf : light_conf) (cs : List String) :
    ∀ (w : World) (bs : List Bool) (w1 : World),
      run_each conf w cs = some (bs, w1) → bs.length = cs.length := by
  induction cs with
  | nil =>
    intro w bs w1 h
    simp only [run_each, Option.some.injEq, Prod.mk.injEq] at h
    rw [← h.1]; rfl
  | cons c cs ih =>
    intro w bs w1 h
    simp only [run_each] at h
    split at h
    · simp at h
    · rename_i r hr
      split at h
      · simp at h
      · rename_i bs1 w2 h2
        simp only [Option.some.injEq, Prod.mk.injEq] at h
        rw [← h.1, List.length_cons, List.length_cons, ih _ _ _ h2]

/-- The loop of `exec_all` and the driver of the specification agree for every
operation but Restore. -/
theorem exec_all_loop_each (conf : light_conf) (hop : conf.op_mode ≠ LIGHT_RESTORE)
    (cs : List String) :
    ∀ (o : Option String) (w : World) (acc : Bool),
      exec_all_loop { conf with ctrl_mode := LIGHT_CTRL_SPECIFY, ctrl := o } w acc cs
        = (run_each conf w cs).map (fun p =>
            ⟨acc && p.1.all id, { conf with ctrl_mode := LIGHT_CTRL_SPECIFY, ctrl := none }, p.2⟩) := by
  induction cs with
  | nil => intro o w acc; simp [exec_all_loop, run_each]
  | cons c cs ih =>
    intro o w acc
    simp only [exec_all_loop, run_each]
    have hctrl : exec_op (ctrl_conf conf c)
        (if conf.op_mode = LIGHT_GET then w.print [OutLine.ctrl_tab c] else w)
        = exec_op_ctrl (ctrl_conf conf c)
            (if conf.op_mode = LIGHT_GET then w.print [OutLine.ctrl_tab c] else w) :=
      exec_op_eq_ctrl _ _ (by simp [ctrl_conf])
    rw [hctrl]
    change (match exec_op_ctrl (ctrl_conf conf c)
        (if conf.op_mode = LIGHT_GET then w.print [OutLine.ctrl_tab c] else w) with
      | none => none
      | some r => exec_all_loop r.conf r.world (if r.ret = true then acc else false) cs) = _
    cases hr : exec_op_ctrl (ctrl_conf conf c)
        (if conf.op_mode = LIGHT_GET then w.print [OutLine.ctrl_tab c] else w) with
    | none => rfl
    | some r =>
      have hconf : r.conf = ctrl_conf conf c := exec_op_ctrl_conf hop hr
      simp only
      rw [hconf]
      have := ih (some c) r.world (if r.ret = true then acc else false)
      rw [show ctrl_conf conf c
        = { conf with ctrl_mode := LIGHT_CTRL_SPECIFY, ctrl := some c } from rfl, this]
      cases run_each conf r.world cs with
      | none => rfl
      | some p =>
        simp only [Option.map_some', List.all_cons, id_eq]
        cases r.ret <;> cases acc <;> simp

theorem exec_get_isSome_of_not_percent (fl : FloatOps) (field : LIGHT_FIELD)
    {mode : LIGHT_VAL_MODE} (curr max mincap : Int) (hvm : mode ≠ LIGHT_PERCENT) :
    ∃ p, exec_get fl field mode curr max mincap = some p := by
  unfold exec_get
  by_cases h0 : max = 0
  · rw [if_pos h0]; exact ⟨_, rfl⟩
  · rw [if_neg h0]
    cases mode
    · cases field <;> exact ⟨_, rfl⟩
    · exact absurd rfl hvm
    · cases field <;> exact ⟨_, rfl⟩

/-- Outside the percent mode every operation but Restore has a result. -/
theorem exec_op_ctrl_isSome (conf : light_conf) (w : World)
    (hop : conf.op_mode ≠ LIGHT_RESTORE) (hvm : conf.val_mode ≠ LIGHT_PERCENT) :
    ∃ r, exec_op_ctrl conf w = some r := by
  unfold exec_op_ctrl
  split_ifs
  · exact ⟨_, rfl⟩
  · unfold exec_dispatch
    cases exec_init conf w with
    | none => exact ⟨_, rfl⟩
    | some t =>
      obtain ⟨curr, max, mincap⟩ := t
      obtain ⟨p, hp⟩ := exec_set_isSome conf max mincap w (fun h => absurd h hvm)
      obtain ⟨q, hq⟩ := exec_get_isSome_of_not_percent w.fl conf.field curr max mincap hvm
      cases ho : conf.op_mode <;> simp only [hp, hq] <;>
        first | exact ⟨_, rfl⟩ | exact absurd ho hop

theorem run_each_isSome (conf : light_conf) (hop : conf.op_mode ≠ LIGHT_RESTORE)
    (hvm : conf.val_mode ≠ LIGHT_PERCENT) (cs : List String) :
    ∀ w : World, ∃ bs w1, run_each conf w cs = some (bs, w1) := by
  induction cs with
  | nil => intro w; exact ⟨_, _, rfl⟩
  | cons c cs ih =>
    intro w
    obtain ⟨r, hr⟩ := exec_op_ctrl_isSome (ctrl_conf conf c)
      (if conf.op_mode = LIGHT_GET then w.print [OutLine.ctrl_tab c] else w) hop hvm
    rw [← exec_op_eq_ctrl _ _ (by simp [ctrl_conf])] at hr
    obtain ⟨bs, w1, h1⟩ := ih r.world
    exact ⟨r.ret :: bs, w1, by simp only [run_each, hr, h1]⟩

/-- C8: for every operation that leaves the configuration as it is (every one
but Restore: Get, Set, Add, Sub, Save and the information modes), `exec_all`
over the controllers the iterator yields does what the driver of the
specification does: it invokes `exec_op` exactly once for each controller, in
order and whatever the earlier results were, and returns true exactly when
every one of these calls returned true (hence true for the empty list);
outside the percent mode all the calls have a result. -/
theorem exec_all_each (conf : light_conf) (w : World) (cs : List String)
    (hop : conf.op_mode ≠ LIGHT_RESTORE) (hdir : w.dir = some cs) :
    exec_all conf w = (run_each conf w cs).map (fun p =>
      ⟨p.1.all id, { conf with ctrl_mode := LIGHT_CTRL_SPECIFY, ctrl := none }, p.2⟩) ∧
    (∀ bs w1, run_each conf w cs = some (bs, w1) → bs.length = cs.length) ∧
    (conf.val_mode ≠ LIGHT_PERCENT → ∃ bs w1, run_each conf w cs = some (bs, w1)) := by
  refine ⟨?_, run_each_length conf cs w, fun hvm => run_each_isSome conf hop hvm cs w⟩
  unfold exec_all
  rw [hdir]
  have := exec_all_loop_each conf hop cs conf.ctrl w true
  simp only [Bool.true_and] at this
  exact this

/-- C8, witness: a Save over two controllers of which the first cannot be read. -/
theorem exec_all_each_witness :
    exec_all (demo_conf "" LIGHT_SAVE LIGHT_RAW LIGHT_BRIGHTNESS 0) first_dead_world
      = (run_each (demo_conf "" LIGHT_SAVE LIGHT_RAW LIGHT_BRIGHTNESS 0) first_dead_world
          ["a", "b"]).map (fun p =>
        ⟨p.1.all id, { demo_conf "" LIGHT_SAVE LIGHT_RAW LIGHT_BRIGHTNESS 0 with
          ctrl_mode := LIGHT_CTRL_SPECIFY, ctrl := none }, p.2⟩) ∧
    (∀ bs w1, run_each (demo_conf "" LIGHT_SAVE LIGHT_RAW LIGHT_BRIGHTNESS 0) first_dead_world
      ["a", "b"] = some (bs, w1) → bs.length = ["a", "b"].length) ∧
    (∃ bs w1, run_each (demo_conf "" LIGHT_SAVE LIGHT_RAW LIGHT_BRIGHTNESS 0) first_dead_world
      ["a", "b"] = some (bs, w1)) :=
  (fun h => ⟨h.1, h.2.1, h.2.2 (by decide)⟩)
    (exec_all_each (demo_conf "" LIGHT_SAVE LIGHT_RAW LIGHT_BRIGHTNESS 0) first_dead_world
      ["a", "b"] (by decide) rfl)

/-- The loop at work for operations that write: a Save over two controllers of
which the first cannot be read fails for the first, still saves the second
and returns false; a Set of the raw value 50 reaches both controllers of
`two_saved_world`; on an empty directory the result is true. -/
theorem exec_all_write_examples :
    (run_each (demo_conf "" LIGHT_SAVE LIGHT_RAW LIGHT_BRIGHTNESS 0) first_dead_world
        ["a", "b"]).map (fun p => (p.1, p.2.writes))
      = some ([false, true], [⟨"b", LIGHT_SAVERESTORE, 20, 20⟩]) ∧
    (exec_all (demo_conf "" LIGHT_SAVE LIGHT_RAW LIGHT_BRIGHTNESS 0) first_dead_world).map
        (fun r => (r.ret, r.world.writes))
      = some (false, [⟨"b", LIGHT_SAVERESTORE, 20, 20⟩]) ∧
    (exec_all (demo_conf "" LIGHT_SET LIGHT_RAW LIGHT_BRIGHTNESS 50) two_saved_world).map
        (fun r => (r.ret, r.world.writes))
      = some (true, [⟨"a", LIGHT_BRIGHTNESS, 10, 50⟩, ⟨"b", LIGHT_BRIGHTNESS, 20, 50⟩]) ∧
    (exec_all (demo_conf "" LIGHT_ADD LIGHT_RAW LIGHT_BRIGHTNESS 5)
        (demo_world [] 10 255 0 (-2))).map (fun r => (r.ret, r.world.writes))
      = some (true, []) := by
  decide

end Brillo
